import Mathlib

/-!
Verification of the tensor PLY point-cloud codec
(`cpp/open3d/t/io/file_format/FilePLY.cpp`).

The C++ file is shallowly embedded below.  Modelling conventions:

* Scalar values travel through rply as C `double`; for every supported dtype
  (uint8, uint16, int32, float32, float64) the cast chain `T -> double -> T`
  is value-preserving, and the codec itself performs no numeric conversion
  (spec section 4.1: bit-exact round trip).  Scalar values are therefore
  modelled by the abstract carrier `Value := Int`, and `static_cast<T>` on a
  value of matching dtype is the identity.
* The external rply library (header grammar, ASCII vs binary-little-endian
  byte encoding) is out of scope per the spec; a parsed file is modelled by
  `PlyFile`: header flags, elements with their properties, and the flat
  scalar stream for the vertex element in file order.  `PlyProperty.count`
  models the value returned by `ply_set_read_cb` for that property.
* `Tensor` is a contiguous row-major buffer; a C++ raw pointer into the
  tensor owned by the point cloud attrib map is modelled by the map key
  of that tensor (the canonical bucket name), since `data_ptr_` is always
  obtained from the point cloud entry of that exact key.
* `utility::LogError` throws; this is the `Except`-error / `ReadResult.fatal`
  outcome.  `utility::LogWarning` plus `return false` is `ReadResult.failed`.
* The progress reporter is a pure sink; its calls are modelled as an emitted
  `List ProgressEvent` in call order.
-/

/-- Abstract scalar carrier for property values (see the header comment). -/
abbrev Value := Int

/-- The rply scalar type enumeration `e_ply_type` (constructor names follow
the C enum, including the `PLY_UIN32` typo present in rply). -/
inductive PlyType where
  | PLY_INT8 | PLY_UINT8 | PLY_INT16 | PLY_UINT16
  | PLY_INT32 | PLY_UIN32 | PLY_FLOAT32 | PLY_FLOAT64
  | PLY_CHAR | PLY_UCHAR | PLY_SHORT | PLY_USHORT
  | PLY_INT | PLY_UINT | PLY_FLOAT | PLY_DOUBLE
  | PLY_LIST
  deriving DecidableEq, Repr

/-- The Open3D `core::Dtype` values (scalar type tags). -/
inductive Dtype where
  | Undefined | Float32 | Float64
  | Int8 | Int16 | Int32 | Int64
  | UInt8 | UInt16 | UInt32 | UInt64
  | Bool
  deriving DecidableEq, Repr

/-- `GetDtypeString` from FilePLY.cpp: the name rply prints for a wire type. -/
def GetDtypeString (type : PlyType) : String :=
  if type = PlyType.PLY_INT8 then "int8"
  else if type = PlyType.PLY_UINT8 then "uint8"
  else if type = PlyType.PLY_INT16 then "int16"
  else if type = PlyType.PLY_UINT16 then "uint16"
  else if type = PlyType.PLY_INT32 then "int32"
  else if type = PlyType.PLY_UIN32 then "uint32"
  else if type = PlyType.PLY_FLOAT32 then "float32"
  else if type = PlyType.PLY_FLOAT64 then "float64"
  else if type = PlyType.PLY_CHAR then "char"
  else if type = PlyType.PLY_UCHAR then "uchar"
  else if type = PlyType.PLY_SHORT then "short"
  else if type = PlyType.PLY_USHORT then "ushort"
  else if type = PlyType.PLY_INT then "int"
  else if type = PlyType.PLY_UINT then "uint"
  else if type = PlyType.PLY_FLOAT then "float"
  else if type = PlyType.PLY_DOUBLE then "double"
  else if type = PlyType.PLY_LIST then "list"
  else "unknown"

/-- `GetDtype` from FilePLY.cpp: wire scalar type to internal dtype;
unsupported wire types map to `Undefined`. -/
def GetDtype (type : PlyType) : Dtype :=
  if type = PlyType.PLY_UINT8 then Dtype.UInt8
  else if type = PlyType.PLY_UINT16 then Dtype.UInt16
  else if type = PlyType.PLY_INT32 then Dtype.Int32
  else if type = PlyType.PLY_FLOAT32 then Dtype.Float32
  else if type = PlyType.PLY_FLOAT64 then Dtype.Float64
  else if type = PlyType.PLY_UCHAR then Dtype.UInt8
  else if type = PlyType.PLY_INT then Dtype.Int32
  else if type = PlyType.PLY_FLOAT then Dtype.Float32
  else if type = PlyType.PLY_DOUBLE then Dtype.Float64
  else Dtype.Undefined

/-- `GetPlyType` from FilePLY.cpp: internal dtype to wire scalar type.  The
source if-chain is preserved verbatim, including its unreachable duplicate
branches for `UInt8`, `Int32` and `Float32` and the catch-all `PLY_DOUBLE`. -/
def GetPlyType (dtype : Dtype) : PlyType :=
  if dtype = Dtype.UInt8 then PlyType.PLY_UINT8
  else if dtype = Dtype.UInt16 then PlyType.PLY_UINT16
  else if dtype = Dtype.Int32 then PlyType.PLY_INT32
  else if dtype = Dtype.Float32 then PlyType.PLY_FLOAT32
  else if dtype = Dtype.Float64 then PlyType.PLY_FLOAT64
  else if dtype = Dtype.UInt8 then PlyType.PLY_UCHAR
  else if dtype = Dtype.Int32 then PlyType.PLY_INT32
  else if dtype = Dtype.Float32 then PlyType.PLY_FLOAT
  else PlyType.PLY_DOUBLE

/-- A contiguous row-major tensor of shape `(rows, cols)` holding scalars of
tag `dtype`; `data` is the flat storage, `data.length = rows * cols` for the
tensors this codec allocates. -/
structure Tensor where
  rows : Nat
  cols : Nat
  dtype : Dtype
  data : List Value
  deriving DecidableEq, Repr

/-- `core::Tensor::Empty`: fresh storage of shape `(rows, cols)`.  The C++
storage is uninitialized; the model fills it with zeros (every claim proved
below only relies on cells the codec itself writes). -/
def Tensor.empty (rows cols : Nat) (dtype : Dtype) : Tensor :=
  { rows := rows, cols := cols, dtype := dtype, data := List.replicate (rows * cols) 0 }

/-- The point cloud attrib map (`TensorMap`): names to tensors.  The map
is modelled as an association list whose order is the iteration order of the
underlying `unordered_map`. -/
structure PointCloud where
  attrs : List (String × Tensor)
  deriving DecidableEq, Repr

/-- `GetPointAttr(name)` as an option: first entry with the given key. -/
def PointCloud.getAttr (pc : PointCloud) (name : String) : Option Tensor :=
  (pc.attrs.find? (fun kv => kv.1 == name)).map (fun kv => kv.2)

/-- `SetPointAttr` (also `SetPointPositions` etc. for the canonical keys):
replaces an existing entry in place or appends a new one. -/
def PointCloud.setAttr (pc : PointCloud) (name : String) (t : Tensor) : PointCloud :=
  if pc.attrs.any (fun kv => kv.1 == name) then
    { attrs := pc.attrs.map (fun kv => if kv.1 == name then (kv.1, t) else kv) }
  else
    { attrs := pc.attrs ++ [(name, t)] }

/-- A store through a raw `data_ptr_` into the tensor keyed `name`:
`data_ptr[index] = value` (no entry is created; entries with other keys are
untouched). -/
def PointCloud.writeAt (pc : PointCloud) (name : String) (index : Nat) (value : Value) :
    PointCloud :=
  { attrs := pc.attrs.map (fun kv =>
      if kv.1 == name then (kv.1, { kv.2 with data := kv.2.data.set index value }) else kv) }

/-- `PLYReaderState::AttrState`.  `data_ptr_` is modelled by `name`, the key
of the point cloud tensor it points into (see the header comment); the C++
struct stores both the canonical name and that pointer. -/
structure AttrState where
  name : String
  stride : Nat
  offset : Nat
  size : Nat
  current_size : Nat
  deriving DecidableEq, Repr

/-- `PLYReaderState`.  The C++ struct also carries `name_to_attr_state_`
(which the source only ever inserts into, never reads — omitted here) and
the `progress_bar_` pointer (progress is modelled as emitted events). -/
structure PLYReaderState where
  id_to_attr_state : List AttrState
  deriving DecidableEq, Repr

/-- Calls observed by the progress reporter collaborator, in order. -/
inductive ProgressEvent where
  | setTotal (n : Nat)
  | update (n : Nat)
  | finish
  deriving DecidableEq, Repr

/-- `ReadAttributeCallback<T>` from FilePLY.cpp.  Returns the updated
state/point cloud, the progress events it emits, and its `int` return value
(rply aborts `ply_read` when a read callback returns 0).  The incoming rply
`double` cast to `T` is the identity on values of matching dtype (header
comment), so `value` is stored unchanged. -/
def ReadAttributeCallback (state : PLYReaderState) (pointcloud : PointCloud)
    (id : Nat) (value : Value) :
    (PLYReaderState × PointCloud) × List ProgressEvent × Int :=
  match state.id_to_attr_state[id]? with
  | none => ((state, pointcloud), [], 0)
  | some attr_state =>
    if attr_state.size ≤ attr_state.current_size then
      ((state, pointcloud), [], 0)
    else
      let index := attr_state.stride * attr_state.current_size + attr_state.offset
      let pointcloud := pointcloud.writeAt attr_state.name index value
      let current_size := attr_state.current_size + 1
      let state : PLYReaderState :=
        { id_to_attr_state :=
            state.id_to_attr_state.set id { attr_state with current_size := current_size } }
      ((state, pointcloud),
       if attr_state.stride = 0 ∧ current_size % 1000 = 0 then
         [ProgressEvent.update current_size]
       else [],
       1)

/-- One scalar property of a PLY element as the reader sees it after header
parse.  `count` is the per-property element count `ply_set_read_cb` reports;
for a well-formed stream it equals the element cardinality, and a corrupt
stream is modelled by a differing `count`. -/
structure PlyProperty where
  name : String
  type : PlyType
  count : Nat
  deriving DecidableEq, Repr

/-- A PLY element: declared name, declared cardinality, scalar properties in
declaration order. -/
structure PlyElement where
  name : String
  size : Nat
  properties : List PlyProperty
  deriving DecidableEq, Repr

/-- A parsed PLY file as the external rply library presents it to the codec.
`openOk` and `headerOk` model the outcomes of `ply_open` and
`ply_read_header`; `values` is the flat scalar stream of the vertex element
in file order (row-major, one scalar per property per row; values of
properties the codec did not register a callback for are present in the
stream and discarded by rply). -/
structure PlyFile where
  openOk : Bool
  headerOk : Bool
  ascii : Bool
  comments : List String
  elements : List PlyElement
  values : List Value
  deriving DecidableEq, Repr

/-- Outcome of `ReadPointCloudFromPLY`: normal success, `return false` after
a logged warning, or a thrown `utility::LogError`. -/
inductive ReadResult where
  | ok (pointcloud : PointCloud)
  | failed
  | fatal (msg : String)
  deriving DecidableEq, Repr

def ReadResult.isOk : ReadResult → Bool
  | .ok _ => true
  | _ => false

def ReadResult.isFatal : ReadResult → Bool
  | .fatal _ => true
  | _ => false

def ReadResult.toCloud : ReadResult → Option PointCloud
  | .ok pointcloud => some pointcloud
  | _ => none

/-- Session state of the property-registration loop of
`ReadPointCloudFromPLY` (lines 193-305): the three lazily-initialized bucket
flags, the reader state, the point cloud being filled, the registered
callback id (or `none` for skipped properties) per property in order, and
the warnings logged so far. -/
structure RegSession where
  positions_init : Bool
  normals_init : Bool
  colors_init : Bool
  state : PLYReaderState
  pc : PointCloud
  reg_ids : List (Option Nat)
  warnings : List String
  deriving DecidableEq, Repr

/-- One iteration of the property-registration loop.  A property of
unsupported wire type is skipped with a warning; otherwise the per-property
count reported by rply must equal the element cardinality (else
`utility::LogError`, modelled as `.error`), the property is classified into
its bucket, the bucket tensor is allocated on first sight, and a descriptor
with the bucket stride/offset is appended under the next dense id. -/
def registerProperty (element_name : String) (element_size : Nat)
    (s : RegSession) (attrib : PlyProperty) : Except String RegSession :=
  if GetDtype attrib.type = Dtype.Undefined then
    .ok { s with
          warnings := s.warnings ++
            ["Read PLY warning: skipping property " ++ attrib.name ++
             ", unsupported datatype " ++ GetDtypeString attrib.type],
          reg_ids := s.reg_ids ++ [none] }
  else
    let id := s.state.id_to_attr_state.length
    let size := attrib.count
    if size ≠ element_size then
      .error ("Total size of property " ++ attrib.name ++
              " is not equal to size of " ++ element_name)
    else
      let attr_name := attrib.name
      if attr_name = "x" ∨ attr_name = "y" ∨ attr_name = "z" then
        let pc := if s.positions_init then s.pc
          else s.pc.setAttr "positions" (Tensor.empty element_size 3 (GetDtype attrib.type))
        let attr_state : AttrState :=
          { name := "positions", stride := 3,
            offset := if attr_name = "x" then 0 else if attr_name = "y" then 1 else 2,
            size := element_size, current_size := 0 }
        .ok { s with
              positions_init := true, pc := pc,
              state := { id_to_attr_state := s.state.id_to_attr_state ++ [attr_state] },
              reg_ids := s.reg_ids ++ [some id] }
      else if attr_name = "nx" ∨ attr_name = "ny" ∨ attr_name = "nz" then
        let pc := if s.normals_init then s.pc
          else s.pc.setAttr "normals" (Tensor.empty element_size 3 (GetDtype attrib.type))
        let attr_state : AttrState :=
          { name := "normals", stride := 3,
            offset := if attr_name = "nx" then 0 else if attr_name = "ny" then 1 else 2,
            size := element_size, current_size := 0 }
        .ok { s with
              normals_init := true, pc := pc,
              state := { id_to_attr_state := s.state.id_to_attr_state ++ [attr_state] },
              reg_ids := s.reg_ids ++ [some id] }
      else if attr_name = "red" ∨ attr_name = "green" ∨ attr_name = "blue" then
        let pc := if s.colors_init then s.pc
          else s.pc.setAttr "colors" (Tensor.empty element_size 3 (GetDtype attrib.type))
        let attr_state : AttrState :=
          { name := "colors", stride := 3,
            offset := if attr_name = "red" then 0 else if attr_name = "green" then 1 else 2,
            size := element_size, current_size := 0 }
        .ok { s with
              colors_init := true, pc := pc,
              state := { id_to_attr_state := s.state.id_to_attr_state ++ [attr_state] },
              reg_ids := s.reg_ids ++ [some id] }
      else
        let attr_state : AttrState :=
          { name := attr_name, stride := 1, offset := 0,
            size := element_size, current_size := 0 }
        let pc := s.pc.setAttr attr_name (Tensor.empty size 1 (GetDtype attrib.type))
        .ok { s with
              pc := pc,
              state := { id_to_attr_state := s.state.id_to_attr_state ++ [attr_state] },
              reg_ids := s.reg_ids ++ [some id] }

/-- The property-registration loop over the vertex element properties; a
thrown `LogError` aborts it. -/
def registerProperties (element_name : String) (element_size : Nat)
    (s : RegSession) : List PlyProperty → Except String RegSession
  | [] => .ok s
  | attrib :: rest =>
    match registerProperty element_name element_size s attrib with
    | .error e => .error e
    | .ok s' => registerProperties element_name element_size s' rest

/-- rply delivering one row of scalar values to the registered callbacks, in
property declaration order; a value whose property has no callback (`none`)
is discarded by rply; a callback returning 0 aborts `ply_read` at once. -/
def plyReadRow : List (Option Nat × Value) → PLYReaderState × PointCloud →
    Option (PLYReaderState × PointCloud) × List ProgressEvent
  | [], acc => (some acc, [])
  | (rid, value) :: rest, (state, pointcloud) =>
    match rid with
    | none => plyReadRow rest (state, pointcloud)
    | some id =>
      match ReadAttributeCallback state pointcloud id value with
      | (acc', events, ret) =>
        if ret = 0 then (none, events)
        else
          let (r, events') := plyReadRow rest acc'
          (r, events ++ events')

/-- `ply_read`: streams `element_size` rows from the flat value stream, each
row pairing the per-property callback ids with the next
`reg_ids.length` scalars (one scalar per declared property per row). -/
def plyReadRows (reg_ids : List (Option Nat)) :
    Nat → List Value → PLYReaderState × PointCloud →
    Option (PLYReaderState × PointCloud) × List ProgressEvent
  | 0, _, acc => (some acc, [])
  | n + 1, vs, acc =>
    match plyReadRow (reg_ids.zip vs) acc with
    | (none, events) => (none, events)
    | (some acc', events) =>
      let (r, events') := plyReadRows reg_ids n (vs.drop reg_ids.length) acc'
      (r, events ++ events')

/-- Fresh registration session over the caller-supplied point cloud. -/
def initSession (pointcloud : PointCloud) : RegSession :=
  { positions_init := false, normals_init := false, colors_init := false,
    state := { id_to_attr_state := [] }, pc := pointcloud,
    reg_ids := [], warnings := [] }

/-- `ReadPointCloudFromPLY` from FilePLY.cpp over a parsed file: find the
first element literally named "vertex", register a callback per supported
property (aborting fatally on a count mismatch), then stream all rows,
reporting progress and finishing the reporter only when `ply_read`
succeeds. -/
def ReadPointCloudFromPLY (file : PlyFile) (pointcloud : PointCloud) :
    ReadResult × List ProgressEvent :=
  if ¬ file.openOk then (.failed, [])
  else if ¬ file.headerOk then (.failed, [])
  else
    match file.elements.find? (fun e => e.name == "vertex") with
    | none => (.failed, [])
    | some element =>
      match registerProperties element.name element.size (initSession pointcloud)
          element.properties with
      | .error msg => (.fatal msg, [])
      | .ok s =>
        let events := [ProgressEvent.setTotal element.size]
        match plyReadRows s.reg_ids element.size file.values (s.state, s.pc) with
        | (none, levents) => (.failed, events ++ levents)
        | (some (_, pc), levents) =>
          (.ok pc, events ++ levents ++ [ProgressEvent.finish])

/-- `AttributePtr` from FilePLY.cpp.  `data_ptr_` is a read-only pointer to
the (contiguous) tensor storage; since the write path never mutates the
map, the pointed-to flat storage is captured directly. -/
structure AttributePtr where
  dtype : Dtype
  data : List Value
  group_size : Nat
  deriving DecidableEq, Repr

/-- The inner write loop of `WritePointCloudToPLY` for one attribute group
at point `i`: `ply_write(file, data_ptr[idx_offset])` for `idx_offset` from
`group_size * i` to `group_size * (i + 1)`. -/
def plyWriteGroup (ap : AttributePtr) (i : Nat) : List Value :=
  (List.range ap.group_size).map (fun k => ap.data.getD (ap.group_size * i + k) 0)

/-- The per-attribute check of the write validation loop (lines 371-391):
positions/normals/colors need `GetLength() == num_points`; every other
attribute needs shape exactly `(num_points, 1)`. -/
def validAttr (num_points : Nat) (kv : String × Tensor) : Bool :=
  if kv.1 == "positions" || kv.1 == "normals" || kv.1 == "colors" then
    kv.2.rows == num_points
  else
    kv.2.rows == num_points && kv.2.cols == 1

/-- Modelled from the spec: `geometry::PointCloud::IsEmpty` is defined
outside this file; per the spec, a cloud is empty when it has no points
("point count > 0 (empty clouds are rejected)"; positions are mandatory). -/
def PointCloud.IsEmpty (pc : PointCloud) : Bool :=
  match pc.getAttr "positions" with
  | none => true
  | some t => t.rows == 0

/-- Modelled from the spec: `HasPointNormals` is defined outside this file;
per the spec the normals bucket is emitted "if present". -/
def PointCloud.HasPointNormals (pc : PointCloud) : Bool :=
  (pc.getAttr "normals").isSome

/-- Modelled from the spec: `HasPointColors` is defined outside this file;
per the spec the colors bucket is emitted "if present". -/
def PointCloud.HasPointColors (pc : PointCloud) : Bool :=
  (pc.getAttr "colors").isSome

/-- `WritePointCloudToPLY` from FilePLY.cpp.  Validation happens before any
file output; `ply_create` and `ply_write_header` (external I/O) are modelled
as succeeding.  The C++ validation loop returns `false` on the first
offending attribute, which is extensionally `List.all` of the per-attribute
check.  The produced `PlyFile` records the header (comment, vertex element
with its property declarations in emission order) and the flat scalar
stream; each property's `count` is the element cardinality rply will report
for it on re-read. -/
def WritePointCloudToPLY (pointcloud : PointCloud) (write_ascii : Bool) :
    Option PlyFile × List ProgressEvent :=
  if pointcloud.IsEmpty then (none, [])
  else
    match pointcloud.getAttr "positions" with
    | none => (none, [])
    | some positions =>
      let t_map := pointcloud.attrs
      let num_points := positions.rows
      if ¬ (t_map.all (validAttr num_points)) then (none, [])
      else
        let pointType := GetPlyType positions.dtype
        let attribute_ptrs : List AttributePtr :=
          [{ dtype := positions.dtype, data := positions.data, group_size := 3 }]
        let props : List PlyProperty :=
          [{ name := "x", type := pointType, count := num_points },
           { name := "y", type := pointType, count := num_points },
           { name := "z", type := pointType, count := num_points }]
        let (attribute_ptrs, props) :=
          if pointcloud.HasPointNormals then
            match pointcloud.getAttr "normals" with
            | some normals =>
              let pointNormalsType := GetPlyType normals.dtype
              (attribute_ptrs ++
                 [{ dtype := normals.dtype, data := normals.data, group_size := 3 }],
               props ++
                 [{ name := "nx", type := pointNormalsType, count := num_points },
                  { name := "ny", type := pointNormalsType, count := num_points },
                  { name := "nz", type := pointNormalsType, count := num_points }])
            | none => (attribute_ptrs, props)
          else (attribute_ptrs, props)
        let (attribute_ptrs, props) :=
          if pointcloud.HasPointColors then
            match pointcloud.getAttr "colors" with
            | some colors =>
              let pointColorType := GetPlyType colors.dtype
              (attribute_ptrs ++
                 [{ dtype := colors.dtype, data := colors.data, group_size := 3 }],
               props ++
                 [{ name := "red", type := pointColorType, count := num_points },
                  { name := "green", type := pointColorType, count := num_points },
                  { name := "blue", type := pointColorType, count := num_points }])
            | none => (attribute_ptrs, props)
          else (attribute_ptrs, props)
        let (attribute_ptrs, props) := t_map.foldl
          (fun acc kv =>
            if kv.1 != "positions" && kv.1 != "colors" && kv.1 != "normals" then
              (acc.1 ++ [{ dtype := kv.2.dtype, data := kv.2.data, group_size := 1 }],
               acc.2 ++
                 [{ name := kv.1, type := GetPlyType kv.2.dtype, count := num_points }])
            else acc)
          (attribute_ptrs, props)
        let (values, update_events) := (List.range num_points).foldl
          (fun acc i =>
            (acc.1 ++ attribute_ptrs.foldl (fun vs ap => vs ++ plyWriteGroup ap i) [],
             acc.2 ++ if i % 1000 = 0 then [ProgressEvent.update i] else []))
          ([], [])
        (some { openOk := true, headerOk := true, ascii := write_ascii,
                comments := ["Created by Open3D"],
                elements := [{ name := "vertex", size := num_points, properties := props }],
                values := values },
         [ProgressEvent.setTotal num_points] ++ update_events ++ [ProgressEvent.finish])

/-- The spec's `Decode(Encode(table))` composite: encode the cloud, then
decode the produced file into a fresh point cloud. -/
def decodeEncoded (pointcloud : PointCloud) (write_ascii : Bool) : Option PointCloud :=
  match WritePointCloudToPLY pointcloud write_ascii with
  | (some file, _) => ((ReadPointCloudFromPLY file { attrs := [] }).1).toCloud
  | (none, _) => none

/-- The file produced by a write call, if any. -/
def writtenFile (pointcloud : PointCloud) (write_ascii : Bool) : Option PlyFile :=
  (WritePointCloudToPLY pointcloud write_ascii).1

/-- Number of `Finish()` calls in an event trace. -/
def finishCount (events : List ProgressEvent) : Nat :=
  events.countP (fun e => e == ProgressEvent.finish)

/-- Internal dtypes the codec round-trips (spec section 4.1). -/
def supportedDtype (d : Dtype) : Bool :=
  d == Dtype.UInt8 || d == Dtype.UInt16 || d == Dtype.Int32 ||
    d == Dtype.Float32 || d == Dtype.Float64

/-- The raw per-scalar property names the reader folds into the three
triple buckets. -/
def reservedPropNames : List String :=
  ["x", "y", "z", "nx", "ny", "nz", "red", "green", "blue"]

/-- The generic (non-bucket) attributes of a cloud, in map iteration order —
exactly the entries the write loop of lines 442-452 emits. -/
def gensOf (pc : PointCloud) : List (String × Tensor) :=
  pc.attrs.filter (fun kv => kv.1 != "positions" && kv.1 != "colors" && kv.1 != "normals")

/-- Shape/dtype well-formedness of one triple bucket tensor. -/
def wfTriple (n : Nat) (t : Tensor) : Bool :=
  t.rows == n && t.cols == 3 && supportedDtype t.dtype && t.data.length == 3 * n

def wfOptTriple (n : Nat) : Option Tensor → Bool
  | none => true
  | some t => wfTriple n t

/-- Well-formedness of one attribute map entry: bucket entries are checked
elsewhere; a generic entry must have shape `(n, 1)`, a supported dtype, and
a name that no reader bucket would capture. -/
def wfGen (n : Nat) (kv : String × Tensor) : Bool :=
  if kv.1 == "positions" || kv.1 == "normals" || kv.1 == "colors" then true
  else
    !(reservedPropNames.contains kv.1) && kv.2.rows == n && kv.2.cols == 1 &&
      supportedDtype kv.2.dtype && kv.2.data.length == n

/-- A well-formed attribute table with `n` points: nonempty, duplicate-free
keys, mandatory positions and optional normals/colors buckets of shape
`(n, 3)` with supported dtypes and full storage, and generic attributes of
shape `(n, 1)` whose names do not collide with the reader's buckets. -/
def wfCloud (pc : PointCloud) (n : Nat) : Bool :=
  n != 0 && decide ((pc.attrs.map Prod.fst).Nodup) &&
  (match pc.getAttr "positions" with
   | none => false
   | some t => wfTriple n t) &&
  wfOptTriple n (pc.getAttr "normals") && wfOptTriple n (pc.getAttr "colors") &&
  pc.attrs.all (wfGen n)

/-- The spec's concrete roundtrip scenario: three float32 position triples
and one generic uint8 attribute "label" with values 1, 2, 3. -/
def pcEx : PointCloud :=
  { attrs := [("positions", { rows := 3, cols := 3, dtype := Dtype.Float32, data := [0, 0, 0, 1, 1, 1, 2, 2, 2] }),
     ("label", { rows := 3, cols := 1, dtype := Dtype.UInt8, data := [1, 2, 3] })] }

/-- A parsed one-point file whose vertex element carries x, y, z (float32)
plus a property "weird" of wire type ushort, which `GetDtype` does not
support; its per-row scalar (42) sits in the stream and is discarded. -/
def fileExProps : List PlyProperty :=
  [{ name := "x", type := PlyType.PLY_FLOAT32, count := 1 },
   { name := "y", type := PlyType.PLY_FLOAT32, count := 1 },
   { name := "z", type := PlyType.PLY_FLOAT32, count := 1 },
   { name := "weird", type := PlyType.PLY_USHORT, count := 1 }]

def fileEx : PlyFile :=
  { openOk := true, headerOk := true, ascii := true, comments := [],
    elements := [{ name := "vertex", size := 1, properties := fileExProps }],
    values := [7, 8, 9, 42] }

/-- A corrupt one-property header: rply reports 1 for a property of a
vertex element that declares 2 rows. -/
def propBad : PlyProperty := { name := "x", type := PlyType.PLY_FLOAT32, count := 1 }

def elemBad : PlyElement := { name := "vertex", size := 2, properties := [propBad] }

def fileBad : PlyFile :=
  { openOk := true, headerOk := true, ascii := true, comments := [],
    elements := [elemBad], values := [] }

/-! ## Proof scaffolding

Descriptions of the reader session state after `i` of `n` rows have been
streamed, for a vertex element written by `WritePointCloudToPLY`: a list of
width-3 buckets (positions, then normals/colors when present) followed by
the generic width-1 attributes. -/

/-- Partially filled flat buffer: the first `j` cells hold the source data,
the rest still hold the `Tensor.empty` fill. -/
def fillUp (l : List Value) (total j : Nat) : List Value :=
  l.take j ++ List.replicate (total - j) 0

/-- The three descriptors of a width-3 bucket `b` after `i` consumed rows. -/
def tripleDesc (b : String) (n i : Nat) : List AttrState :=
  [{ name := b, stride := 3, offset := 0, size := n, current_size := i },
   { name := b, stride := 3, offset := 1, size := n, current_size := i },
   { name := b, stride := 3, offset := 2, size := n, current_size := i }]

/-- The descriptor of a generic scalar attribute after `i` consumed rows. -/
def genDesc (g : String) (n i : Nat) : AttrState :=
  { name := g, stride := 1, offset := 0, size := n, current_size := i }

/-- A width-3 bucket source: canonical name, dtype, flat source data. -/
abbrev BucketSpec := String × Dtype × List Value

/-- Point-cloud entries of the width-3 buckets after `i` consumed rows. -/
def bucketAttrs (buckets : List BucketSpec) (n i : Nat) : List (String × Tensor) :=
  buckets.map (fun b =>
    (b.1, { rows := n, cols := 3, dtype := b.2.1, data := fillUp b.2.2 (3 * n) (3 * i) }))

/-- Point-cloud entries of the generic attributes after `i` consumed rows. -/
def genAttrs (gens : List (String × Tensor)) (n i : Nat) : List (String × Tensor) :=
  gens.map (fun kv =>
    (kv.1, { rows := n, cols := 1, dtype := kv.2.dtype, data := fillUp kv.2.data n i }))

/-- Reader descriptors after `i` consumed rows, in registration order. -/
def sessionDescs (buckets : List BucketSpec) (gens : List (String × Tensor))
    (n i : Nat) : List AttrState :=
  buckets.flatMap (fun b => tripleDesc b.1 n i) ++ gens.map (fun kv => genDesc kv.1 n i)

/-- The point cloud being filled, after `i` consumed rows. -/
def sessionCloud (buckets : List BucketSpec) (gens : List (String × Tensor))
    (n i : Nat) : PointCloud :=
  { attrs := bucketAttrs buckets n i ++ genAttrs gens n i }

/-- The three scalars a width-3 bucket contributes to row `i`. -/
def tripleVals (dat : List Value) (i : Nat) : List Value :=
  [dat.getD (3 * i) 0, dat.getD (3 * i + 1) 0, dat.getD (3 * i + 2) 0]

/-- Row `i` of the written scalar stream, grouped per the fixed order. -/
def rowOf (buckets : List BucketSpec) (gens : List (String × Tensor)) (i : Nat) :
    List Value :=
  buckets.flatMap (fun b => tripleVals b.2.2 i) ++ gens.map (fun kv => kv.2.data.getD i 0)

/-- Callback arguments of one row: consecutive registered ids from `k`
paired with the row values. -/
def rowPairs (k : Nat) : List Value → List (Option Nat × Value)
  | [] => []
  | v :: vs => (some k, v) :: rowPairs (k + 1) vs

/-- `m` consecutive registered callback ids starting at `k`. -/
def someIds (k : Nat) : Nat → List (Option Nat)
  | 0 => []
  | m + 1 => some k :: someIds (k + 1) m

theorem rowPairs_append (k : Nat) (l₁ l₂ : List Value) :
    rowPairs k (l₁ ++ l₂) = rowPairs k l₁ ++ rowPairs (k + l₁.length) l₂ := by
  induction l₁ generalizing k with
  | nil => simp [rowPairs]
  | cons v vs ih =>
    have h : k + (vs.length + 1) = k + 1 + vs.length := by omega
    simp only [List.cons_append, rowPairs, List.length_cons, h]
    exact congrArg (List.cons (some k, v)) (ih (k + 1))

theorem someIds_length (k m : Nat) : (someIds k m).length = m := by
  induction m generalizing k with
  | zero => rfl
  | succ p ih => simp [someIds, ih]

theorem someIds_zip (k m : Nat) (vs : List Value) :
    (someIds k m).zip vs = rowPairs k (vs.take m) := by
  induction m generalizing k vs with
  | zero => simp [someIds, rowPairs]
  | succ p ih =>
    cases vs with
    | nil => simp [someIds, rowPairs]
    | cons v rest => simp [someIds, rowPairs, ih]

theorem getElem?_append_offset {α : Type} (pre l : List α) (j : Nat) :
    (pre ++ l)[pre.length + j]? = l[j]? := by
  have h : pre.length ≤ pre.length + j := Nat.le_add_right _ _
  rw [List.getElem?_append_right h, Nat.add_sub_cancel_left]

theorem set_append_offset {α : Type} (pre l : List α) (j : Nat) (x : α) :
    (pre ++ l).set (pre.length + j) x = pre ++ l.set j x := by
  have h : pre.length ≤ pre.length + j := Nat.le_add_right _ _
  rw [List.set_append_right _ _ h, Nat.add_sub_cancel_left]

theorem fillUp_set (l : List Value) (total j : Nat)
    (hlen : l.length = total) (hj : j < total) :
    (fillUp l total j).set j (l.getD j 0) = fillUp l total (j + 1) := by
  have hjl : j < l.length := by omega
  have htake : (l.take j).length = j := by simp; omega
  have hrepl : total - j = (total - (j + 1)) + 1 := by omega
  unfold fillUp
  calc (l.take j ++ List.replicate (total - j) 0).set j (l.getD j 0)
      = l.take j ++ (List.replicate (total - j) (0 : Value)).set (j - (l.take j).length)
          (l.getD j 0) := by
        rw [List.set_append_right _ _ (by omega)]
    _ = l.take j ++ l.getD j 0 :: List.replicate (total - (j + 1)) 0 := by
        rw [htake, Nat.sub_self, hrepl, List.replicate_succ, List.set_cons_zero]
    _ = l.take (j + 1) ++ List.replicate (total - (j + 1)) 0 := by
        have hgd : l.getD j 0 = l[j] := by
          simp [List.getD, List.getElem?_eq_getElem hjl]
        rw [hgd, List.take_succ, List.getElem?_eq_getElem hjl, Option.toList_some,
            List.append_assoc, List.singleton_append]

theorem fillUp_full (l : List Value) (total : Nat) (hlen : l.length = total) :
    fillUp l total total = l := by
  unfold fillUp
  rw [Nat.sub_self, List.replicate_zero, List.append_nil, ← hlen, List.take_length]

theorem map_writeAt_skip (l : List (String × Tensor)) (b : String) (j : Nat) (v : Value)
    (h : ∀ kv ∈ l, (kv.1 == b) = false) :
    l.map (fun kv =>
      if kv.1 == b then (kv.1, { kv.2 with data := kv.2.data.set j v }) else kv) = l := by
  induction l with
  | nil => rfl
  | cons kv rest ih =>
    have hkv : ¬ ((kv.1 == b) = true) := by simp [h kv (List.mem_cons_self kv rest)]
    rw [List.map_cons, if_neg hkv, ih (fun x hx => h x (List.mem_cons_of_mem kv hx))]

theorem writeAt_entry (A B : List (String × Tensor)) (b : String) (T : Tensor)
    (j : Nat) (v : Value)
    (hA : ∀ kv ∈ A, (kv.1 == b) = false) (hB : ∀ kv ∈ B, (kv.1 == b) = false) :
    PointCloud.writeAt { attrs := A ++ (b, T) :: B } b j v =
      { attrs := A ++ (b, { T with data := T.data.set j v }) :: B } := by
  unfold PointCloud.writeAt
  congr 1
  rw [List.map_append, List.map_cons, map_writeAt_skip A b j v hA,
      map_writeAt_skip B b j v hB]
  simp

theorem callback_store (descs : List AttrState) (pc : PointCloud) (id : Nat) (v : Value)
    (a : AttrState) (h : descs[id]? = some a) (hlt : a.current_size < a.size)
    (hstride : a.stride ≠ 0) :
    ReadAttributeCallback { id_to_attr_state := descs } pc id v =
      (({ id_to_attr_state := descs.set id { a with current_size := a.current_size + 1 } },
        pc.writeAt a.name (a.stride * a.current_size + a.offset) v), [], 1) := by
  unfold ReadAttributeCallback
  simp [h, Nat.not_le.mpr hlt, hstride]

theorem callback_full (state : PLYReaderState) (pc : PointCloud) (id : Nat) (v : Value)
    (a : AttrState) (h : state.id_to_attr_state[id]? = some a)
    (hge : a.size ≤ a.current_size) :
    ReadAttributeCallback state pc id v = ((state, pc), [], 0) := by
  unfold ReadAttributeCallback
  simp [h, hge]

theorem plyReadRow_skip (rest : List (Option Nat × Value)) (acc : PLYReaderState × PointCloud)
    (v : Value) :
    plyReadRow ((none, v) :: rest) acc = plyReadRow rest acc := by
  obtain ⟨st, pc⟩ := acc
  simp [plyReadRow]

theorem plyReadRow_cons_store (descs : List AttrState) (pc : PointCloud) (id : Nat)
    (v : Value) (a : AttrState) (rest : List (Option Nat × Value))
    (h : descs[id]? = some a) (hlt : a.current_size < a.size) (hstride : a.stride ≠ 0) :
    plyReadRow ((some id, v) :: rest) ({ id_to_attr_state := descs }, pc) =
      plyReadRow rest
        ({ id_to_attr_state := descs.set id { a with current_size := a.current_size + 1 } },
         pc.writeAt a.name (a.stride * a.current_size + a.offset) v) := by
  simp only [plyReadRow, callback_store descs pc id v a h hlt hstride]
  simp

theorem plyReadRow_append (l₁ l₂ : List (Option Nat × Value))
    (acc acc' : PLYReaderState × PointCloud) (e₁ : List ProgressEvent)
    (h : plyReadRow l₁ acc = (some acc', e₁)) :
    plyReadRow (l₁ ++ l₂) acc =
      ((plyReadRow l₂ acc').1, e₁ ++ (plyReadRow l₂ acc').2) := by
  induction l₁ generalizing acc e₁ with
  | nil =>
    simp only [plyReadRow, Prod.mk.injEq, Option.some.injEq] at h
    obtain ⟨h1, h2⟩ := h
    subst h1
    subst h2
    simp
  | cons p rest ih =>
    obtain ⟨st, pc⟩ := acc
    obtain ⟨rid, v⟩ := p
    cases rid with
    | none =>
      rw [plyReadRow_skip] at h
      show plyReadRow ((none, v) :: (rest ++ l₂)) (st, pc) = _
      rw [plyReadRow_skip]
      exact ih (st, pc) e₁ h
    | some id =>
      rcases hcb : ReadAttributeCallback st pc id v with ⟨acc₂, ev, ret⟩
      by_cases hret : ret = 0
      · subst hret
        simp only [plyReadRow, hcb, if_pos rfl] at h
        simp at h
      · rcases hrow : plyReadRow rest acc₂ with ⟨r, e⟩
        simp only [plyReadRow, hcb, if_neg hret, hrow] at h
        have h1 : r = some acc' := congrArg Prod.fst h
        have h2 : ev ++ e = e₁ := congrArg Prod.snd h
        subst h1
        have hmain := ih acc₂ e hrow
        simp only [List.cons_append, plyReadRow, hcb, if_neg hret, List.append_eq]
        rw [hmain, ← h2]
        simp [List.append_assoc]

theorem plyReadRow_step (descs : List AttrState) (pc : PointCloud) (id : Nat)
    (v : Value) (a : AttrState) (rest : List (Option Nat × Value))
    (descs' : List AttrState) (pc' : PointCloud)
    (h : descs[id]? = some a) (hlt : a.current_size < a.size) (hstride : a.stride ≠ 0)
    (hset : descs.set id { a with current_size := a.current_size + 1 } = descs')
    (hw : pc.writeAt a.name (a.stride * a.current_size + a.offset) v = pc') :
    plyReadRow ((some id, v) :: rest) ({ id_to_attr_state := descs }, pc) =
      plyReadRow rest ({ id_to_attr_state := descs' }, pc') := by
  rw [plyReadRow_cons_store descs pc id v a rest h hlt hstride, hset, hw]

theorem writeAt_mid (A B : List (String × Tensor)) (b : String) (r c : Nat)
    (d : Dtype) (dat0 : List Value) (j : Nat) (v : Value)
    (hA : ∀ kv ∈ A, (kv.1 == b) = false) (hB : ∀ kv ∈ B, (kv.1 == b) = false) :
    PointCloud.writeAt { attrs := A ++ (b, ⟨r, c, d, dat0⟩) :: B } b j v =
      { attrs := A ++ (b, ⟨r, c, d, dat0.set j v⟩) :: B } := by
  unfold PointCloud.writeAt
  congr 1
  rw [List.map_append, List.map_cons, map_writeAt_skip A b j v hA,
      map_writeAt_skip B b j v hB]
  simp

theorem tripleStep (pre post : List AttrState) (A B : List (String × Tensor))
    (b : String) (d : Dtype) (dat : List Value) (n i : Nat)
    (hi : i < n) (hlen : dat.length = 3 * n)
    (hA : ∀ kv ∈ A, (kv.1 == b) = false) (hB : ∀ kv ∈ B, (kv.1 == b) = false) :
    plyReadRow (rowPairs pre.length (tripleVals dat i))
      ({ id_to_attr_state := pre ++ (tripleDesc b n i ++ post) },
       { attrs := A ++ (b, ⟨n, 3, d, fillUp dat (3 * n) (3 * i)⟩) :: B }) =
      (some ({ id_to_attr_state := pre ++ (tripleDesc b n (i + 1) ++ post) },
             { attrs := A ++ (b, ⟨n, 3, d, fillUp dat (3 * n) (3 * (i + 1))⟩) :: B }), []) := by
  have h0 : 3 * i < 3 * n := by omega
  have h1 : 3 * i + 1 < 3 * n := by omega
  have h2 : 3 * i + 2 < 3 * n := by omega
  have hs3 : (3 : Nat) ≠ 0 := by decide
  rw [show rowPairs pre.length (tripleVals dat i) =
        [(some pre.length, dat.getD (3 * i) 0),
         (some (pre.length + 1), dat.getD (3 * i + 1) 0),
         (some (pre.length + 2), dat.getD (3 * i + 2) 0)] from rfl]
  have g0 : (pre ++ (tripleDesc b n i ++ post))[pre.length]? = some ⟨b, 3, 0, n, i⟩ := by
    simpa [tripleDesc] using getElem?_append_offset pre (tripleDesc b n i ++ post) 0
  have s0 : (pre ++ (tripleDesc b n i ++ post)).set pre.length ⟨b, 3, 0, n, i + 1⟩ =
      pre ++ (⟨b, 3, 0, n, i + 1⟩ :: ⟨b, 3, 1, n, i⟩ :: ⟨b, 3, 2, n, i⟩ :: post) := by
    simpa [tripleDesc] using
      set_append_offset pre (tripleDesc b n i ++ post) 0 (⟨b, 3, 0, n, i + 1⟩ : AttrState)
  have w0 : PointCloud.writeAt
        { attrs := A ++ (b, ⟨n, 3, d, fillUp dat (3 * n) (3 * i)⟩) :: B } b (3 * i + 0)
        (dat.getD (3 * i) 0) =
      { attrs := A ++ (b, ⟨n, 3, d, fillUp dat (3 * n) (3 * i + 1)⟩) :: B } := by
    rw [writeAt_mid A B b n 3 d _ _ _ hA hB]
    simp only [Nat.add_zero]
    rw [fillUp_set dat (3 * n) (3 * i) hlen h0]
  rw [plyReadRow_step _ _ _ _ _ _ _ _ g0 hi hs3 s0 w0]
  have g1 : (pre ++ (⟨b, 3, 0, n, i + 1⟩ :: ⟨b, 3, 1, n, i⟩ :: ⟨b, 3, 2, n, i⟩ :: post) :
        List AttrState)[pre.length + 1]? = some ⟨b, 3, 1, n, i⟩ := by
    simpa using getElem?_append_offset pre
      (⟨b, 3, 0, n, i + 1⟩ :: ⟨b, 3, 1, n, i⟩ :: ⟨b, 3, 2, n, i⟩ :: post) 1
  have s1 : ((pre ++ (⟨b, 3, 0, n, i + 1⟩ :: ⟨b, 3, 1, n, i⟩ :: ⟨b, 3, 2, n, i⟩ :: post) :
        List AttrState)).set (pre.length + 1) ⟨b, 3, 1, n, i + 1⟩ =
      pre ++ (⟨b, 3, 0, n, i + 1⟩ :: ⟨b, 3, 1, n, i + 1⟩ :: ⟨b, 3, 2, n, i⟩ :: post) := by
    simpa using set_append_offset pre
      (⟨b, 3, 0, n, i + 1⟩ :: ⟨b, 3, 1, n, i⟩ :: ⟨b, 3, 2, n, i⟩ :: post) 1
      (⟨b, 3, 1, n, i + 1⟩ : AttrState)
  have w1 : PointCloud.writeAt
        { attrs := A ++ (b, ⟨n, 3, d, fillUp dat (3 * n) (3 * i + 1)⟩) :: B } b (3 * i + 1)
        (dat.getD (3 * i + 1) 0) =
      { attrs := A ++ (b, ⟨n, 3, d, fillUp dat (3 * n) (3 * i + 2)⟩) :: B } := by
    rw [writeAt_mid A B b n 3 d _ _ _ hA hB]
    rw [fillUp_set dat (3 * n) (3 * i + 1) hlen h1]
  rw [plyReadRow_step _ _ _ _ _ _ _ _ g1 hi hs3 s1 w1]
  have g2 : (pre ++ (⟨b, 3, 0, n, i + 1⟩ :: ⟨b, 3, 1, n, i + 1⟩ :: ⟨b, 3, 2, n, i⟩ :: post) :
        List AttrState)[pre.length + 2]? = some ⟨b, 3, 2, n, i⟩ := by
    simpa using getElem?_append_offset pre
      (⟨b, 3, 0, n, i + 1⟩ :: ⟨b, 3, 1, n, i + 1⟩ :: ⟨b, 3, 2, n, i⟩ :: post) 2
  have s2 : ((pre ++ (⟨b, 3, 0, n, i + 1⟩ :: ⟨b, 3, 1, n, i + 1⟩ :: ⟨b, 3, 2, n, i⟩ :: post) :
        List AttrState)).set (pre.length + 2) ⟨b, 3, 2, n, i + 1⟩ =
      pre ++ (⟨b, 3, 0, n, i + 1⟩ :: ⟨b, 3, 1, n, i + 1⟩ :: ⟨b, 3, 2, n, i + 1⟩ :: post) := by
    simpa using set_append_offset pre
      (⟨b, 3, 0, n, i + 1⟩ :: ⟨b, 3, 1, n, i + 1⟩ :: ⟨b, 3, 2, n, i⟩ :: post) 2
      (⟨b, 3, 2, n, i + 1⟩ : AttrState)
  have w2 : PointCloud.writeAt
        { attrs := A ++ (b, ⟨n, 3, d, fillUp dat (3 * n) (3 * i + 2)⟩) :: B } b (3 * i + 2)
        (dat.getD (3 * i + 2) 0) =
      { attrs := A ++ (b, ⟨n, 3, d, fillUp dat (3 * n) (3 * (i + 1))⟩) :: B } := by
    rw [writeAt_mid A B b n 3 d _ _ _ hA hB]
    rw [fillUp_set dat (3 * n) (3 * i + 2) hlen h2]
    have h33 : 3 * i + 2 + 1 = 3 * (i + 1) := by omega
    rw [h33]
  rw [plyReadRow_step _ _ _ _ _ _ _ _ g2 hi hs3 s2 w2]
  rfl

theorem genStep (pre post : List AttrState) (A B : List (String × Tensor))
    (g : String) (d : Dtype) (dat : List Value) (n i : Nat)
    (hi : i < n) (hlen : dat.length = n)
    (hA : ∀ kv ∈ A, (kv.1 == g) = false) (hB : ∀ kv ∈ B, (kv.1 == g) = false) :
    plyReadRow [(some pre.length, dat.getD i 0)]
      ({ id_to_attr_state := pre ++ (genDesc g n i :: post) },
       { attrs := A ++ (g, ⟨n, 1, d, fillUp dat n i⟩) :: B }) =
      (some ({ id_to_attr_state := pre ++ (genDesc g n (i + 1) :: post) },
             { attrs := A ++ (g, ⟨n, 1, d, fillUp dat n (i + 1)⟩) :: B }), []) := by
  have hs1 : (1 : Nat) ≠ 0 := by decide
  have g0 : (pre ++ (genDesc g n i :: post))[pre.length]? = some ⟨g, 1, 0, n, i⟩ := by
    simpa [genDesc] using getElem?_append_offset pre (genDesc g n i :: post) 0
  have s0 : (pre ++ (genDesc g n i :: post)).set pre.length ⟨g, 1, 0, n, i + 1⟩ =
      pre ++ (genDesc g n (i + 1) :: post) := by
    simpa [genDesc] using
      set_append_offset pre (genDesc g n i :: post) 0 (⟨g, 1, 0, n, i + 1⟩ : AttrState)
  have w0 : PointCloud.writeAt
        { attrs := A ++ (g, ⟨n, 1, d, fillUp dat n i⟩) :: B } g (1 * i + 0)
        (dat.getD i 0) =
      { attrs := A ++ (g, ⟨n, 1, d, fillUp dat n (i + 1)⟩) :: B } := by
    rw [writeAt_mid A B g n 1 d _ _ _ hA hB]
    simp only [Nat.one_mul, Nat.add_zero]
    rw [fillUp_set dat n i hlen hi]
  rw [plyReadRow_step _ _ _ _ _ _ _ _ g0 hi hs1 s0 w0]
  rfl

theorem tripleDescs_length (buckets : List BucketSpec) (n i : Nat) :
    (buckets.flatMap (fun b => tripleDesc b.1 n i)).length = 3 * buckets.length := by
  induction buckets with
  | nil => simp
  | cons b rest ih =>
    have h3 : (tripleDesc b.1 n i).length = 3 := rfl
    rw [List.flatMap_cons, List.length_append, ih, h3, List.length_cons]
    omega

theorem rowBuckets (gens : List (String × Tensor)) (n i : Nat) (hi : i < n) :
    ∀ (todo done : List BucketSpec),
    (∀ b ∈ todo, b.2.2.length = 3 * n) →
    (∀ b ∈ todo, (∀ c ∈ done, (c.1 == b.1) = false) ∧
                 (∀ kv ∈ gens, (kv.1 == b.1) = false)) →
    (todo.map (fun b => b.1)).Nodup →
    plyReadRow (rowPairs (3 * done.length) (todo.flatMap (fun b => tripleVals b.2.2 i)))
      ({ id_to_attr_state := done.flatMap (fun b => tripleDesc b.1 n (i + 1)) ++
           (todo.flatMap (fun b => tripleDesc b.1 n i) ++
             gens.map (fun kv => genDesc kv.1 n i)) },
       { attrs := bucketAttrs done n (i + 1) ++
           (bucketAttrs todo n i ++ genAttrs gens n i) }) =
      (some ({ id_to_attr_state :=
                 (done ++ todo).flatMap (fun b => tripleDesc b.1 n (i + 1)) ++
                   gens.map (fun kv => genDesc kv.1 n i) },
             { attrs := bucketAttrs (done ++ todo) n (i + 1) ++ genAttrs gens n i }), []) := by
  intro todo
  induction todo with
  | nil =>
    intro done _ _ _
    simp [rowPairs, plyReadRow, bucketAttrs]
  | cons b rest ih =>
    intro done hlen hfresh hnd
    have hfb := hfresh b (List.mem_cons_self b rest)
    have hbnotin : b.1 ∉ rest.map (fun x => x.1) := by
      rw [List.map_cons, List.nodup_cons] at hnd
      exact hnd.1
    have hndrest : (rest.map (fun x => x.1)).Nodup := by
      rw [List.map_cons, List.nodup_cons] at hnd
      exact hnd.2
    have hrestkeys : ∀ c ∈ rest, (c.1 == b.1) = false := by
      intro c hc
      have hcb : c.1 ≠ b.1 := by
        intro he
        exact hbnotin (he ▸ List.mem_map_of_mem _ hc)
      simpa using hcb
    have hAkeys : ∀ kv ∈ bucketAttrs done n (i + 1), (kv.1 == b.1) = false := by
      intro kv hkv
      simp only [bucketAttrs, List.mem_map] at hkv
      obtain ⟨c, hc, rfl⟩ := hkv
      exact hfb.1 c hc
    have hBkeys : ∀ kv ∈ bucketAttrs rest n i ++ genAttrs gens n i,
        (kv.1 == b.1) = false := by
      intro kv hkv
      rcases List.mem_append.mp hkv with hkv | hkv
      · simp only [bucketAttrs, List.mem_map] at hkv
        obtain ⟨c, hc, rfl⟩ := hkv
        exact hrestkeys c hc
      · simp only [genAttrs, List.mem_map] at hkv
        obtain ⟨kv', hkv', rfl⟩ := hkv
        exact hfb.2 kv' hkv'
    have hstep := tripleStep
      (done.flatMap (fun c => tripleDesc c.1 n (i + 1)))
      (rest.flatMap (fun c => tripleDesc c.1 n i) ++ gens.map (fun kv => genDesc kv.1 n i))
      (bucketAttrs done n (i + 1))
      (bucketAttrs rest n i ++ genAttrs gens n i)
      b.1 b.2.1 b.2.2 n i hi (hlen b (List.mem_cons_self b rest)) hAkeys hBkeys
    have hpre := tripleDescs_length done n (i + 1)
    rw [hpre] at hstep
    have hfresh' : ∀ x ∈ rest, (∀ c ∈ done ++ [b], (c.1 == x.1) = false) ∧
        (∀ kv ∈ gens, (kv.1 == x.1) = false) := by
      intro x hx
      refine ⟨?_, (hfresh x (List.mem_cons_of_mem b hx)).2⟩
      intro c hc
      rcases List.mem_append.mp hc with hc | hc
      · exact (hfresh x (List.mem_cons_of_mem b hx)).1 c hc
      · rw [List.mem_singleton.mp hc]
        have hbx : b.1 ≠ x.1 := by
          intro he
          exact hbnotin (he ▸ List.mem_map_of_mem _ hx)
        simpa using hbx
    have hlen' : ∀ c ∈ rest, c.2.2.length = 3 * n :=
      fun c hc => hlen c (List.mem_cons_of_mem b hc)
    have ihres := ih (done ++ [b]) hlen' hfresh' hndrest
    rw [List.flatMap_cons, rowPairs_append]
    have hlv : (tripleVals b.2.2 i).length = 3 := rfl
    rw [hlv]
    simp only [List.flatMap_cons, bucketAttrs, List.map_cons, List.cons_append,
      List.append_assoc] at hstep ihres ⊢
    rw [plyReadRow_append _ _ _ _ _ hstep]
    simp only [List.nil_append, Prod.mk.eta]
    simp only [List.flatMap_append, List.flatMap_cons, List.flatMap_nil,
      List.append_nil, List.nil_append, List.append_assoc, List.map_append, List.map_cons,
      List.map_nil, Nat.mul_succ, List.singleton_append, List.cons_append]
    simp only [List.flatMap_append, List.flatMap_cons, List.flatMap_nil,
      List.append_nil, List.nil_append, List.append_assoc, List.map_append, List.map_cons,
      List.map_nil, List.length_append, List.length_cons, List.length_nil, Nat.mul_succ,
      List.singleton_append, List.cons_append] at ihres
    exact ihres

theorem rowGens (buckets : List BucketSpec) (n i : Nat) (hi : i < n) :
    ∀ (todo done : List (String × Tensor)),
    (∀ kv ∈ todo, kv.2.data.length = n) →
    (∀ kv ∈ todo, (∀ c ∈ buckets, (c.1 == kv.1) = false) ∧
                  (∀ c ∈ done, (c.1 == kv.1) = false)) →
    (todo.map Prod.fst).Nodup →
    plyReadRow (rowPairs (3 * buckets.length + done.length)
        (todo.map (fun kv => kv.2.data.getD i 0)))
      ({ id_to_attr_state := buckets.flatMap (fun b => tripleDesc b.1 n (i + 1)) ++
           (done.map (fun kv => genDesc kv.1 n (i + 1)) ++
             todo.map (fun kv => genDesc kv.1 n i)) },
       { attrs := bucketAttrs buckets n (i + 1) ++
           (genAttrs done n (i + 1) ++ genAttrs todo n i) }) =
      (some ({ id_to_attr_state := buckets.flatMap (fun b => tripleDesc b.1 n (i + 1)) ++
                 (done ++ todo).map (fun kv => genDesc kv.1 n (i + 1)) },
             { attrs := bucketAttrs buckets n (i + 1) ++
                 genAttrs (done ++ todo) n (i + 1) }), []) := by
  intro todo
  induction todo with
  | nil =>
    intro done _ _ _
    simp [rowPairs, plyReadRow, genAttrs]
  | cons kv rest ih =>
    intro done hlen hfresh hnd
    have hfkv := hfresh kv (List.mem_cons_self kv rest)
    have hkvnotin : kv.1 ∉ rest.map Prod.fst := by
      rw [List.map_cons, List.nodup_cons] at hnd
      exact hnd.1
    have hndrest : (rest.map Prod.fst).Nodup := by
      rw [List.map_cons, List.nodup_cons] at hnd
      exact hnd.2
    have hrestkeys : ∀ c ∈ rest, (c.1 == kv.1) = false := by
      intro c hc
      have hck : c.1 ≠ kv.1 := by
        intro he
        exact hkvnotin (he ▸ List.mem_map_of_mem _ hc)
      simpa using hck
    have hAkeys : ∀ x ∈ bucketAttrs buckets n (i + 1) ++ genAttrs done n (i + 1),
        (x.1 == kv.1) = false := by
      intro x hx
      rcases List.mem_append.mp hx with hx | hx
      · simp only [bucketAttrs, List.mem_map] at hx
        obtain ⟨c, hc, rfl⟩ := hx
        exact hfkv.1 c hc
      · simp only [genAttrs, List.mem_map] at hx
        obtain ⟨c, hc, rfl⟩ := hx
        exact hfkv.2 c hc
    have hBkeys : ∀ x ∈ genAttrs rest n i, (x.1 == kv.1) = false := by
      intro x hx
      simp only [genAttrs, List.mem_map] at hx
      obtain ⟨c, hc, rfl⟩ := hx
      exact hrestkeys c hc
    have hstep := genStep
      (buckets.flatMap (fun b => tripleDesc b.1 n (i + 1)) ++
        done.map (fun x => genDesc x.1 n (i + 1)))
      (rest.map (fun x => genDesc x.1 n i))
      (bucketAttrs buckets n (i + 1) ++ genAttrs done n (i + 1))
      (genAttrs rest n i)
      kv.1 kv.2.dtype kv.2.data n i hi (hlen kv (List.mem_cons_self kv rest)) hAkeys hBkeys
    have hpre : (buckets.flatMap (fun b => tripleDesc b.1 n (i + 1)) ++
        done.map (fun x => genDesc x.1 n (i + 1))).length =
        3 * buckets.length + done.length := by
      rw [List.length_append, tripleDescs_length, List.length_map]
    rw [hpre] at hstep
    have hfresh' : ∀ x ∈ rest, (∀ c ∈ buckets, (c.1 == x.1) = false) ∧
        (∀ c ∈ done ++ [kv], (c.1 == x.1) = false) := by
      intro x hx
      refine ⟨(hfresh x (List.mem_cons_of_mem kv hx)).1, ?_⟩
      intro c hc
      rcases List.mem_append.mp hc with hc | hc
      · exact (hfresh x (List.mem_cons_of_mem kv hx)).2 c hc
      · rw [List.mem_singleton.mp hc]
        have hkx : kv.1 ≠ x.1 := by
          intro he
          exact hkvnotin (he ▸ List.mem_map_of_mem _ hx)
        simpa using hkx
    have hlen' : ∀ c ∈ rest, c.2.data.length = n :=
      fun c hc => hlen c (List.mem_cons_of_mem kv hc)
    have ihres := ih (done ++ [kv]) hlen' hfresh' hndrest
    rw [List.map_cons]
    simp only [genAttrs, List.map_cons, List.cons_append, List.append_assoc] at hstep ihres ⊢
    rw [show rowPairs (3 * buckets.length + done.length)
          (kv.2.data.getD i 0 :: rest.map (fun x => x.2.data.getD i 0)) =
        [(some (3 * buckets.length + done.length), kv.2.data.getD i 0)] ++
          rowPairs (3 * buckets.length + done.length + 1)
            (rest.map (fun x => x.2.data.getD i 0)) from rfl]
    rw [plyReadRow_append _ _ _ _ _ hstep]
    simp only [List.nil_append, Prod.mk.eta]
    simp only [List.flatMap_append, List.flatMap_cons, List.flatMap_nil,
      List.append_nil, List.nil_append, List.append_assoc, List.map_append, List.map_cons,
      List.map_nil, List.length_append, List.length_cons, List.length_nil,
      List.singleton_append, List.cons_append] at ihres ⊢
    have harith : 3 * buckets.length + (done.length + 1) =
        3 * buckets.length + done.length + 1 := by omega
    rw [harith] at ihres
    exact ihres

theorem tripleVals_length (buckets : List BucketSpec) (i : Nat) :
    (buckets.flatMap (fun b => tripleVals b.2.2 i)).length = 3 * buckets.length := by
  induction buckets with
  | nil => simp
  | cons b rest ih =>
    have h3 : (tripleVals b.2.2 i).length = 3 := rfl
    rw [List.flatMap_cons, List.length_append, ih, h3, List.length_cons]
    omega

theorem rowOf_length (buckets : List BucketSpec) (gens : List (String × Tensor)) (i : Nat) :
    (rowOf buckets gens i).length = 3 * buckets.length + gens.length := by
  unfold rowOf
  rw [List.length_append, tripleVals_length, List.length_map]

theorem rowFull (buckets : List BucketSpec) (gens : List (String × Tensor)) (n i : Nat)
    (hi : i < n)
    (hblen : ∀ b ∈ buckets, b.2.2.length = 3 * n)
    (hglen : ∀ kv ∈ gens, kv.2.data.length = n)
    (hnd : (buckets.map (fun b => b.1) ++ gens.map Prod.fst).Nodup) :
    plyReadRow (rowPairs 0 (rowOf buckets gens i))
      ({ id_to_attr_state := sessionDescs buckets gens n i },
       sessionCloud buckets gens n i) =
      (some ({ id_to_attr_state := sessionDescs buckets gens n (i + 1) },
             sessionCloud buckets gens n (i + 1)), []) := by
  obtain ⟨hndb, hndg, hdisj⟩ := List.nodup_append.mp hnd
  have hcross : ∀ b ∈ buckets, ∀ kv ∈ gens, (kv.1 == b.1) = false := by
    intro b hb kv hkv
    have hne : kv.1 ≠ b.1 := by
      intro he
      exact hdisj (List.mem_map_of_mem _ hb) (he ▸ List.mem_map_of_mem _ hkv)
    simpa using hne
  have hcross' : ∀ kv ∈ gens, ∀ b ∈ buckets, (b.1 == kv.1) = false := by
    intro kv hkv b hb
    have hne : b.1 ≠ kv.1 := by
      intro he
      exact hdisj (List.mem_map_of_mem _ hb) (he ▸ List.mem_map_of_mem _ hkv)
    simpa using hne
  have h1 := rowBuckets gens n i hi buckets [] hblen
    (fun b hb => ⟨fun c hc => absurd hc (List.not_mem_nil c),
                  fun kv hkv => hcross b hb kv hkv⟩) hndb
  have h2 := rowGens buckets n i hi gens [] hglen
    (fun kv hkv => ⟨fun c hc => hcross' kv hkv c hc,
                    fun c hc => absurd hc (List.not_mem_nil c)⟩) hndg
  unfold sessionDescs sessionCloud rowOf
  rw [rowPairs_append, tripleVals_length, Nat.zero_add]
  simp only [List.flatMap_nil, List.nil_append, List.length_nil, Nat.mul_zero,
    Nat.add_zero, Nat.zero_add, List.map_nil, bucketAttrs, genAttrs, List.map_append,
    List.append_nil] at h1 h2 ⊢
  rw [plyReadRow_append _ _ _ _ _ h1]
  rw [h2]
  simp
theorem readRowsFull (buckets : List BucketSpec) (gens : List (String × Tensor)) (n : Nat)
    (hblen : ∀ b ∈ buckets, b.2.2.length = 3 * n)
    (hglen : ∀ kv ∈ gens, kv.2.data.length = n)
    (hnd : (buckets.map (fun b => b.1) ++ gens.map Prod.fst).Nodup) :
    ∀ (r i : Nat), i + r = n →
    plyReadRows (someIds 0 (3 * buckets.length + gens.length)) r
        (((List.range' i r).map (rowOf buckets gens)).flatten)
        ({ id_to_attr_state := sessionDescs buckets gens n i },
         sessionCloud buckets gens n i) =
      (some ({ id_to_attr_state := sessionDescs buckets gens n n },
             sessionCloud buckets gens n n), []) := by
  intro r
  induction r with
  | zero =>
    intro i hi
    have hin : i = n := by omega
    subst hin
    simp [plyReadRows]
  | succ p ih =>
    intro i hi
    rw [List.range'_succ, List.map_cons, List.flatten_cons]
    have hzip : (someIds 0 (3 * buckets.length + gens.length)).zip
        (rowOf buckets gens i ++ ((List.range' (i + 1) p).map (rowOf buckets gens)).flatten) =
        rowPairs 0 (rowOf buckets gens i) := by
      rw [someIds_zip]
      congr 1
      rw [← rowOf_length buckets gens i, List.take_left]
    have hrow := rowFull buckets gens n i (by omega) hblen hglen hnd
    have hdrop : (rowOf buckets gens i ++
        ((List.range' (i + 1) p).map (rowOf buckets gens)).flatten).drop
          (someIds 0 (3 * buckets.length + gens.length)).length =
        ((List.range' (i + 1) p).map (rowOf buckets gens)).flatten := by
      rw [someIds_length, ← rowOf_length buckets gens i, List.drop_left]
    simp only [plyReadRows, hzip, hrow, hdrop]
    have := ih (i + 1) (by omega)
    rw [this]
    simp

theorem GetDtype_GetPlyType (d : Dtype) (hd : supportedDtype d = true) :
    GetDtype (GetPlyType d) = d := by
  cases d <;> simp_all [supportedDtype] <;> rfl

theorem GetDtype_GetPlyType_ne (d : Dtype) (hd : supportedDtype d = true) :
    ¬ (GetDtype (GetPlyType d) = Dtype.Undefined) := by
  rw [GetDtype_GetPlyType d hd]
  cases d <;> simp_all [supportedDtype]

theorem supported_ne_undefined (d : Dtype) (hd : supportedDtype d = true) :
    ¬ (d = Dtype.Undefined) := by
  intro he
  rw [he] at hd
  simp [supportedDtype] at hd

theorem registerProperties_append (en : String) (es : Nat) (s s' : RegSession)
    (l₁ l₂ : List PlyProperty) (h : registerProperties en es s l₁ = .ok s') :
    registerProperties en es s (l₁ ++ l₂) = registerProperties en es s' l₂ := by
  induction l₁ generalizing s with
  | nil =>
    simp only [registerProperties, Except.ok.injEq] at h
    subst h
    rfl
  | cons p rest ih =>
    rw [List.cons_append]
    simp only [registerProperties] at h ⊢
    cases hp : registerProperty en es s p with
    | error e =>
      try rw [hp] at h
      simp at h
    | ok s₂ =>
      try rw [hp] at h
      try rw [hp]
      exact ih s₂ h

theorem regTriple_positions (en : String) (n : Nat) (s : RegSession) (d : Dtype)
    (hd : supportedDtype d = true) (hinit : s.positions_init = false) :
    registerProperties en n s
      [{ name := "x", type := GetPlyType d, count := n },
       { name := "y", type := GetPlyType d, count := n },
       { name := "z", type := GetPlyType d, count := n }] =
      .ok { s with
            positions_init := true,
            pc := s.pc.setAttr "positions" (Tensor.empty n 3 d),
            state := { id_to_attr_state :=
              s.state.id_to_attr_state ++ tripleDesc "positions" n 0 },
            reg_ids := s.reg_ids ++
              someIds s.state.id_to_attr_state.length 3 } := by
  have hgd := GetDtype_GetPlyType d hd
  have hne := GetDtype_GetPlyType_ne d hd
  have hdu : ¬ (d = Dtype.Undefined) := supported_ne_undefined d hd
  simp [registerProperties, registerProperty, hne, hgd, hdu, hinit, tripleDesc, someIds,
    List.append_assoc]

theorem regTriple_normals (en : String) (n : Nat) (s : RegSession) (d : Dtype)
    (hd : supportedDtype d = true) (hinit : s.normals_init = false) :
    registerProperties en n s
      [{ name := "nx", type := GetPlyType d, count := n },
       { name := "ny", type := GetPlyType d, count := n },
       { name := "nz", type := GetPlyType d, count := n }] =
      .ok { s with
            normals_init := true,
            pc := s.pc.setAttr "normals" (Tensor.empty n 3 d),
            state := { id_to_attr_state :=
              s.state.id_to_attr_state ++ tripleDesc "normals" n 0 },
            reg_ids := s.reg_ids ++
              someIds s.state.id_to_attr_state.length 3 } := by
  have hgd := GetDtype_GetPlyType d hd
  have hne := GetDtype_GetPlyType_ne d hd
  have hdu : ¬ (d = Dtype.Undefined) := supported_ne_undefined d hd
  simp [registerProperties, registerProperty, hne, hgd, hdu, hinit, tripleDesc, someIds,
    List.append_assoc]

theorem regTriple_colors (en : String) (n : Nat) (s : RegSession) (d : Dtype)
    (hd : supportedDtype d = true) (hinit : s.colors_init = false) :
    registerProperties en n s
      [{ name := "red", type := GetPlyType d, count := n },
       { name := "green", type := GetPlyType d, count := n },
       { name := "blue", type := GetPlyType d, count := n }] =
      .ok { s with
            colors_init := true,
            pc := s.pc.setAttr "colors" (Tensor.empty n 3 d),
            state := { id_to_attr_state :=
              s.state.id_to_attr_state ++ tripleDesc "colors" n 0 },
            reg_ids := s.reg_ids ++
              someIds s.state.id_to_attr_state.length 3 } := by
  have hgd := GetDtype_GetPlyType d hd
  have hne := GetDtype_GetPlyType_ne d hd
  have hdu : ¬ (d = Dtype.Undefined) := supported_ne_undefined d hd
  simp [registerProperties, registerProperty, hne, hgd, hdu, hinit, tripleDesc, someIds,
    List.append_assoc]

theorem regGens (en : String) (n : Nat) :
    ∀ (gens : List (String × Tensor)) (s : RegSession),
    (∀ kv ∈ gens, supportedDtype kv.2.dtype = true) →
    (∀ kv ∈ gens, kv.1 ∉ reservedPropNames) →
    (∀ kv ∈ gens, ∀ x ∈ s.pc.attrs, (x.1 == kv.1) = false) →
    (gens.map Prod.fst).Nodup →
    registerProperties en n s
      (gens.map (fun kv => { name := kv.1, type := GetPlyType kv.2.dtype, count := n })) =
      .ok { s with
            pc := { attrs :=
              s.pc.attrs ++ gens.map (fun kv => (kv.1, Tensor.empty n 1 kv.2.dtype)) },
            state := { id_to_attr_state :=
              s.state.id_to_attr_state ++ gens.map (fun kv => genDesc kv.1 n 0) },
            reg_ids :=
              s.reg_ids ++ someIds s.state.id_to_attr_state.length gens.length } := by
  intro gens
  induction gens with
  | nil =>
    intro s _ _ _ _
    simp [registerProperties, someIds]
  | cons kv rest ih =>
    intro s hsup hres hfresh hnd
    have hmem := List.mem_cons_self kv rest
    have hgd := GetDtype_GetPlyType kv.2.dtype (hsup kv hmem)
    have hne := GetDtype_GetPlyType_ne kv.2.dtype (hsup kv hmem)
    have hdu : ¬ (kv.2.dtype = Dtype.Undefined) :=
      supported_ne_undefined kv.2.dtype (hsup kv hmem)
    have h9 := hres kv hmem
    simp only [reservedPropNames, List.mem_cons, List.not_mem_nil, or_false,
      not_or] at h9
    obtain ⟨hx, hy, hz, hnx, hny, hnz, hred, hgreen, hblue⟩ := h9
    have hany : (s.pc.attrs.any (fun x => x.1 == kv.1)) = false := by
      rw [List.any_eq_false]
      intro x hxmem
      simp [hfresh kv hmem x hxmem]
    have hkvnotin : kv.1 ∉ rest.map Prod.fst := by
      rw [List.map_cons, List.nodup_cons] at hnd
      exact hnd.1
    have hndrest : (rest.map Prod.fst).Nodup := by
      rw [List.map_cons, List.nodup_cons] at hnd
      exact hnd.2
    rw [List.map_cons]
    have hstep : registerProperty en n s
        { name := kv.1, type := GetPlyType kv.2.dtype, count := n } =
        .ok { s with
              pc := { attrs := s.pc.attrs ++ [(kv.1, Tensor.empty n 1 kv.2.dtype)] },
              state := { id_to_attr_state := s.state.id_to_attr_state ++ [genDesc kv.1 n 0] },
              reg_ids := s.reg_ids ++ [some s.state.id_to_attr_state.length] } := by
      simp [registerProperty, hne, hgd, hdu, hx, hy, hz, hnx, hny, hnz, hred, hgreen,
        hblue, PointCloud.setAttr, hany, genDesc]
    have hih := ih { s with
        pc := { attrs := s.pc.attrs ++ [(kv.1, Tensor.empty n 1 kv.2.dtype)] },
        state := { id_to_attr_state := s.state.id_to_attr_state ++ [genDesc kv.1 n 0] },
        reg_ids := s.reg_ids ++ [some s.state.id_to_attr_state.length] }
      (fun x hxm => hsup x (List.mem_cons_of_mem kv hxm))
      (fun x hxm => hres x (List.mem_cons_of_mem kv hxm))
      (by
        intro x hxm y hym
        simp only [List.mem_append, List.mem_singleton] at hym
        rcases hym with hym | hym
        · exact hfresh x (List.mem_cons_of_mem kv hxm) y hym
        · rw [hym]
          have hne2 : kv.1 ≠ x.1 := by
            intro he
            exact hkvnotin (he ▸ List.mem_map_of_mem _ hxm)
          simpa using hne2)
      hndrest
    simp only [registerProperties, hstep]
    rw [hih]
    simp [List.append_assoc, someIds]

theorem someIds_append (k m₁ m₂ : Nat) :
    someIds k (m₁ + m₂) = someIds k m₁ ++ someIds (k + m₁) m₂ := by
  induction m₁ generalizing k with
  | zero => simp [someIds]
  | succ p ih =>
    have h1 : k + (p + 1) + 0 = k + 1 + p := by omega
    rw [show p + 1 + m₂ = (p + m₂) + 1 from by omega]
    rw [show someIds k (p + m₂ + 1) = some k :: someIds (k + 1) (p + m₂) from rfl]
    rw [show someIds k (p + 1) = some k :: someIds (k + 1) p from rfl]
    rw [ih (k + 1), List.cons_append]
    have h2 : k + 1 + p = k + (p + 1) := by omega
    rw [h2]

theorem foldl_pair_append {α β γ : Type} (l : List α) (f : α → List β) (g : α → List γ)
    (b1 : List β) (b2 : List γ) :
    l.foldl (fun acc x => (acc.1 ++ f x, acc.2 ++ g x)) (b1, b2) =
      (b1 ++ l.flatMap f, b2 ++ l.flatMap g) := by
  induction l generalizing b1 b2 with
  | nil => simp
  | cons x rest ih => simp [List.flatMap_cons, ih, List.append_assoc]

theorem foldl_pair_filter {α β γ : Type} (l : List α) (p : α → Bool) (f : α → β)
    (g : α → γ) (b1 : List β) (b2 : List γ) :
    l.foldl (fun acc x => if p x then (acc.1 ++ [f x], acc.2 ++ [g x]) else acc) (b1, b2) =
      (b1 ++ (l.filter p).map f, b2 ++ (l.filter p).map g) := by
  induction l generalizing b1 b2 with
  | nil => simp
  | cons x rest ih =>
    by_cases hp : p x = true
    · simp [List.filter_cons, hp, ih, List.append_assoc]
    · simp only [List.foldl_cons, List.filter_cons, hp, if_neg]
      simp only [Bool.false_eq_true, if_false, ih]

theorem foldl_append_flatMap {α β : Type} (l : List α) (f : α → List β) (b : List β) :
    l.foldl (fun acc x => acc ++ f x) b = b ++ l.flatMap f := by
  induction l generalizing b with
  | nil => simp
  | cons x rest ih => simp [List.flatMap_cons, ih, List.append_assoc]

/-- The three per-scalar property declarations of a triple bucket. -/
def tripleProps (names : List String) (pt : PlyType) (n : Nat) : List PlyProperty :=
  names.map (fun nm => { name := nm, type := pt, count := n })

/-- Header contribution of an optional triple bucket. -/
def optTriple (o : Option Tensor) (names : List String) (n : Nat) :
    List AttributePtr × List PlyProperty :=
  match o with
  | some t => ([{ dtype := t.dtype, data := t.data, group_size := 3 }],
               tripleProps names (GetPlyType t.dtype) n)
  | none => ([], [])

/-- The attribute pointers a write call iterates, in emission order. -/
def encodePtrs (pc : PointCloud) (positions : Tensor) (n : Nat) : List AttributePtr :=
  [{ dtype := positions.dtype, data := positions.data, group_size := 3 }] ++
    (optTriple (pc.getAttr "normals") ["nx", "ny", "nz"] n).1 ++
    (optTriple (pc.getAttr "colors") ["red", "green", "blue"] n).1 ++
    (gensOf pc).map (fun kv => { dtype := kv.2.dtype, data := kv.2.data, group_size := 1 })

/-- The property declarations a write call emits, in order. -/
def encodeProps (pc : PointCloud) (positions : Tensor) (n : Nat) : List PlyProperty :=
  tripleProps ["x", "y", "z"] (GetPlyType positions.dtype) n ++
    (optTriple (pc.getAttr "normals") ["nx", "ny", "nz"] n).2 ++
    (optTriple (pc.getAttr "colors") ["red", "green", "blue"] n).2 ++
    (gensOf pc).map (fun kv => { name := kv.1, type := GetPlyType kv.2.dtype, count := n })

/-- Row `i` of the written stream: each group in order contributes its
`group_size` scalars read at `group_size * i + k`. -/
def encRow (ptrs : List AttributePtr) (i : Nat) : List Value :=
  ptrs.flatMap (fun ap => plyWriteGroup ap i)

/-- The whole written scalar stream, point-major. -/
def encValues (ptrs : List AttributePtr) (n : Nat) : List Value :=
  (List.range n).flatMap (encRow ptrs)

/-- The Update events the write loop emits. -/
def encUpdates (n : Nat) : List ProgressEvent :=
  (List.range n).flatMap (fun i => if i % 1000 = 0 then [ProgressEvent.update i] else [])

theorem writeChar (pc : PointCloud) (ascii : Bool) (positions : Tensor) (n : Nat)
    (hpos : pc.getAttr "positions" = some positions)
    (hn : positions.rows = n) (hn0 : n ≠ 0)
    (hvalid : pc.attrs.all (validAttr n) = true) :
    WritePointCloudToPLY pc ascii =
      (some { openOk := true, headerOk := true, ascii := ascii,
              comments := ["Created by Open3D"],
              elements := [{ name := "vertex", size := n,
                             properties := encodeProps pc positions n }],
              values := encValues (encodePtrs pc positions n) n },
       [ProgressEvent.setTotal n] ++ encUpdates n ++ [ProgressEvent.finish]) := by
  have hemp : pc.IsEmpty = false := by
    unfold PointCloud.IsEmpty
    rw [hpos]
    simp [hn, hn0]
  unfold WritePointCloudToPLY PointCloud.HasPointNormals PointCloud.HasPointColors
  unfold encodePtrs encodeProps encValues
  cases hnorm : pc.getAttr "normals" with
  | none =>
    cases hcol : pc.getAttr "colors" with
    | none =>
      simp only [hemp, Bool.false_eq_true, if_false, hpos, hnorm, hcol, hn, hvalid,
        not_true, Option.isSome_none, Option.isSome_some, if_true, optTriple,
        tripleProps, List.map_cons, List.map_nil, List.append_nil]
      rw [foldl_pair_filter, foldl_pair_append]
      simp only [List.nil_append, gensOf, encRow, encUpdates]
      simp only [foldl_append_flatMap, List.nil_append]
      rfl
    | some colors =>
      simp only [hemp, Bool.false_eq_true, if_false, hpos, hnorm, hcol, hn, hvalid,
        not_true, Option.isSome_none, Option.isSome_some, if_true, optTriple,
        tripleProps, List.map_cons, List.map_nil, List.append_nil]
      rw [foldl_pair_filter, foldl_pair_append]
      simp only [List.nil_append, gensOf, encRow, encUpdates]
      simp only [foldl_append_flatMap, List.nil_append]
      rfl
  | some normals =>
    cases hcol : pc.getAttr "colors" with
    | none =>
      simp only [hemp, Bool.false_eq_true, if_false, hpos, hnorm, hcol, hn, hvalid,
        not_true, Option.isSome_none, Option.isSome_some, if_true, optTriple,
        tripleProps, List.map_cons, List.map_nil, List.append_nil]
      rw [foldl_pair_filter, foldl_pair_append]
      simp only [List.nil_append, gensOf, encRow, encUpdates]
      simp only [foldl_append_flatMap, List.nil_append]
      rfl
    | some colors =>
      simp only [hemp, Bool.false_eq_true, if_false, hpos, hnorm, hcol, hn, hvalid,
        not_true, Option.isSome_none, Option.isSome_some, if_true, optTriple,
        tripleProps, List.map_cons, List.map_nil, List.append_nil]
      rw [foldl_pair_filter, foldl_pair_append]
      simp only [List.nil_append, gensOf, encRow, encUpdates]
      simp only [foldl_append_flatMap, List.nil_append]
      rfl

theorem plyWriteGroup_three (d : Dtype) (dat : List Value) (i : Nat) :
    plyWriteGroup { dtype := d, data := dat, group_size := 3 } i = tripleVals dat i := rfl

theorem plyWriteGroup_one (d : Dtype) (dat : List Value) (i : Nat) :
    plyWriteGroup { dtype := d, data := dat, group_size := 1 } i = [dat.getD i 0] := by
  simp [plyWriteGroup, tripleVals, Nat.one_mul, List.range_succ, List.getD]

theorem tensor_empty_fill3 (n : Nat) (d : Dtype) (dat : List Value) :
    Tensor.empty n 3 d = { rows := n, cols := 3, dtype := d, data := fillUp dat (3 * n) 0 } := by
  unfold Tensor.empty fillUp
  simp [Nat.mul_comm]

theorem tensor_empty_fill1 (n : Nat) (d : Dtype) (dat : List Value) :
    Tensor.empty n 1 d = { rows := n, cols := 1, dtype := d, data := fillUp dat n 0 } := by
  unfold Tensor.empty fillUp
  simp

theorem find?_of_mem_nodup {β : Type} (l : List (String × β)) (kv : String × β)
    (hnd : (l.map Prod.fst).Nodup) (hkv : kv ∈ l) :
    l.find? (fun x => x.1 == kv.1) = some kv := by
  induction l with
  | nil => cases hkv
  | cons a rest ih =>
    rw [List.map_cons, List.nodup_cons] at hnd
    rcases List.mem_cons.mp hkv with rfl | hkv'
    · rw [List.find?_cons_of_pos _ (by simp)]
    · have hbeq : (a.1 == kv.1) = false := by
        have ha : a.1 ≠ kv.1 := by
          intro he
          exact hnd.1 (he ▸ List.mem_map_of_mem Prod.fst hkv')
        simpa using ha
      rw [List.find?_cons, hbeq]
      exact ih hnd.2 hkv'

theorem getAttr_of_mem (pc : PointCloud) (kv : String × Tensor)
    (hnd : (pc.attrs.map Prod.fst).Nodup) (hkv : kv ∈ pc.attrs) :
    pc.getAttr kv.1 = some kv.2 := by
  unfold PointCloud.getAttr
  rw [find?_of_mem_nodup pc.attrs kv hnd hkv]
  rfl

theorem wf_validAttr (pc : PointCloud) (n : Nat) (h : wfCloud pc n = true) :
    pc.attrs.all (validAttr n) = true := by
  unfold wfCloud at h
  simp only [Bool.and_eq_true, decide_eq_true_eq] at h
  obtain ⟨⟨⟨⟨⟨hn0, hnd⟩, hposm⟩, hnormo⟩, hcolo⟩, hgall⟩ := h
  rw [List.all_eq_true]
  intro kv hkv
  have hw := (List.all_eq_true.mp hgall) kv hkv
  have hget := getAttr_of_mem pc kv hnd hkv
  unfold validAttr
  by_cases hb : (kv.1 == "positions" || kv.1 == "normals" || kv.1 == "colors") = true
  · rw [if_pos hb]
    simp only [Bool.or_eq_true, beq_iff_eq] at hb
    rcases hb with (hb | hb) | hb
    · rw [hb] at hget
      cases hpos : pc.getAttr "positions" with
      | none => rw [hpos] at hposm; simp at hposm
      | some t =>
        rw [hpos] at hget hposm
        have ht : kv.2 = t := by injection hget with hh; exact hh.symm
        simp only [wfTriple, Bool.and_eq_true, beq_iff_eq] at hposm
        simp [ht, hposm.1.1.1]
    · rw [hb] at hget
      rw [hget] at hnormo
      have := hnormo
      simp only [wfOptTriple, wfTriple, Bool.and_eq_true, beq_iff_eq] at this
      simp [this.1.1.1]
    · rw [hb] at hget
      rw [hget] at hcolo
      have := hcolo
      simp only [wfOptTriple, wfTriple, Bool.and_eq_true, beq_iff_eq] at this
      simp [this.1.1.1]
  · rw [if_neg hb]
    unfold wfGen at hw
    rw [if_neg hb] at hw
    simp only [Bool.and_eq_true, beq_iff_eq] at hw
    simp [hw.1.1.1.2, hw.1.1.2]

/-- The attribute table a decode of a freshly encoded cloud produces:
buckets first (in registration order), then the generic attributes in
emission order. -/
def canonCloud (pc : PointCloud) : PointCloud :=
  { attrs :=
      (match pc.getAttr "positions" with
       | some t => [("positions", t)]
       | none => []) ++
      (match pc.getAttr "normals" with
       | some t => [("normals", t)]
       | none => []) ++
      (match pc.getAttr "colors" with
       | some t => [("colors", t)]
       | none => []) ++
      gensOf pc }

theorem find?_gens (l : List (String × Tensor)) (name : String)
    (h1 : name ≠ "positions") (h2 : name ≠ "colors") (h3 : name ≠ "normals") :
    (l.filter (fun kv => kv.1 != "positions" && kv.1 != "colors" &&
        kv.1 != "normals")).find? (fun kv => kv.1 == name) =
      l.find? (fun kv => kv.1 == name) := by
  induction l with
  | nil => rfl
  | cons kv rest ih =>
    by_cases hk : kv.1 = name
    · have hfilt : (kv.1 != "positions" && kv.1 != "colors" && kv.1 != "normals") = true := by
        rw [hk]
        simp [h1, h2, h3]
      have hbeq : (kv.1 == name) = true := by simp [hk]
      rw [List.filter_cons, hfilt]
      simp only [if_true]
      rw [List.find?_cons, hbeq, List.find?_cons, hbeq]
    · have hbeq : (kv.1 == name) = false := by simp [hk]
      cases hfilt : (kv.1 != "positions" && kv.1 != "colors" && kv.1 != "normals") with
      | true =>
        rw [List.filter_cons, hfilt]
        simp only [if_true]
        rw [List.find?_cons, hbeq, List.find?_cons, hbeq]
        exact ih
      | false =>
        rw [List.filter_cons, hfilt]
        simp only [Bool.false_eq_true, if_false]
        rw [List.find?_cons, hbeq]
        exact ih

theorem gens_key_not_bucket (pc : PointCloud) (kv : String × Tensor)
    (hkv : kv ∈ gensOf pc) :
    kv.1 ≠ "positions" ∧ kv.1 ≠ "colors" ∧ kv.1 ≠ "normals" := by
  have hp := List.of_mem_filter hkv
  simp only [Bool.and_eq_true, bne_iff_ne, ne_eq] at hp
  exact ⟨hp.1.1, hp.1.2, hp.2⟩

theorem getAttr_mk (l : List (String × Tensor)) (name : String) :
    (PointCloud.mk l).getAttr name =
      (l.find? (fun kv => kv.1 == name)).map (fun kv => kv.2) := rfl

theorem canonCloud_getAttr (pc : PointCloud) (name : String) :
    (canonCloud pc).getAttr name = pc.getAttr name := by
  have hgensnone : ∀ b, b = "positions" ∨ b = "colors" ∨ b = "normals" →
      (gensOf pc).find? (fun kv => kv.1 == b) = none := by
    intro b hb
    rw [List.find?_eq_none]
    intro kv hkv
    have hk := gens_key_not_bucket pc kv hkv
    rcases hb with rfl | rfl | rfl
    · simp [hk.1]
    · simp [hk.2.1]
    · simp [hk.2.2]
  by_cases h1 : name = "positions"
  · subst h1
    unfold canonCloud
    rw [getAttr_mk]
    cases hpos : pc.getAttr "positions" <;>
      cases hnorm : pc.getAttr "normals" <;>
        cases hcol : pc.getAttr "colors" <;>
          simp [List.find?_append, List.find?_cons,
            hgensnone "positions" (Or.inl rfl)]
  · by_cases h2 : name = "normals"
    · subst h2
      unfold canonCloud
      rw [getAttr_mk]
      cases hpos : pc.getAttr "positions" <;>
        cases hnorm : pc.getAttr "normals" <;>
          cases hcol : pc.getAttr "colors" <;>
            simp [List.find?_append, List.find?_cons,
              hgensnone "normals" (Or.inr (Or.inr rfl))]
    · by_cases h3 : name = "colors"
      · subst h3
        unfold canonCloud
        rw [getAttr_mk]
        cases hpos : pc.getAttr "positions" <;>
          cases hnorm : pc.getAttr "normals" <;>
            cases hcol : pc.getAttr "colors" <;>
              simp [List.find?_append, List.find?_cons,
                hgensnone "colors" (Or.inr (Or.inl rfl))]
      · have hb1 : ("positions" == name) = false := by
          simp
          exact fun he => h1 he.symm
        have hb2 : ("normals" == name) = false := by
          simp
          exact fun he => h2 he.symm
        have hb3 : ("colors" == name) = false := by
          simp
          exact fun he => h3 he.symm
        unfold canonCloud
        rw [getAttr_mk]
        have hfg : (gensOf pc).find? (fun kv => kv.1 == name) =
            pc.attrs.find? (fun kv => kv.1 == name) := by
          unfold gensOf
          exact find?_gens pc.attrs name h1 h3 h2
        cases hpos : pc.getAttr "positions" <;>
          cases hnorm : pc.getAttr "normals" <;>
            cases hcol : pc.getAttr "colors" <;>
              simp [List.find?_append, List.find?_cons, hb1, hb2, hb3, hfg,
                PointCloud.getAttr]

theorem read_of_registered (file : PlyFile) (pc0 : PointCloud) (element : PlyElement)
    (s : RegSession) (st' : PLYReaderState) (pc' : PointCloud) (evts : List ProgressEvent)
    (hopen : file.openOk = true) (hheader : file.headerOk = true)
    (hfind : file.elements.find? (fun e => e.name == "vertex") = some element)
    (hreg : registerProperties element.name element.size (initSession pc0)
      element.properties = .ok s)
    (hrows : plyReadRows s.reg_ids element.size file.values (s.state, s.pc) =
      (some (st', pc'), evts)) :
    ReadPointCloudFromPLY file pc0 =
      (.ok pc', [ProgressEvent.setTotal element.size] ++ evts ++
        [ProgressEvent.finish]) := by
  unfold ReadPointCloudFromPLY
  simp [hopen, hheader, hfind, hreg, hrows]

theorem wf_gens_facts (pc : PointCloud) (n : Nat) (h : wfCloud pc n = true) :
    ∀ kv ∈ gensOf pc, kv.1 ∉ reservedPropNames ∧ kv.2.rows = n ∧ kv.2.cols = 1 ∧
      supportedDtype kv.2.dtype = true ∧ kv.2.data.length = n := by
  unfold wfCloud at h
  simp only [Bool.and_eq_true, decide_eq_true_eq] at h
  obtain ⟨⟨⟨⟨⟨hn0, hnd⟩, hposm⟩, hnormo⟩, hcolo⟩, hgall⟩ := h
  intro kv hkv
  have hmem := List.mem_of_mem_filter hkv
  have hk := gens_key_not_bucket pc kv hkv
  have hw := (List.all_eq_true.mp hgall) kv hmem
  unfold wfGen at hw
  have hb : (kv.1 == "positions" || kv.1 == "normals" || kv.1 == "colors") = false := by
    simp [hk.1, hk.2.1, hk.2.2]
  simp only [hb, Bool.false_eq_true, if_false, Bool.and_eq_true, beq_iff_eq] at hw
  refine ⟨?_, hw.1.1.1.2, hw.1.1.2, hw.1.2, hw.2⟩
  intro hmem2
  have hcont := hw.1.1.1.1
  simp only [Bool.not_eq_true'] at hcont
  rw [List.contains_eq_any_beq] at hcont
  have : reservedPropNames.any (fun x => kv.1 == x) = true := by
    rw [List.any_eq_true]
    exact ⟨kv.1, hmem2, by simp⟩
  rw [this] at hcont
  cases hcont

theorem wf_gens_nodup (pc : PointCloud) (n : Nat) (h : wfCloud pc n = true) :
    ((gensOf pc).map Prod.fst).Nodup := by
  unfold wfCloud at h
  simp only [Bool.and_eq_true, decide_eq_true_eq] at h
  exact h.1.1.1.1.2.sublist (List.Sublist.map Prod.fst (List.filter_sublist pc.attrs))

theorem flatMap_singleton_map {α β : Type} (l : List α) (f : α → β) :
    l.flatMap (fun x => [f x]) = l.map f := by
  induction l with
  | nil => rfl
  | cons a rest ih => simp [List.flatMap_cons, ih]

theorem decodeEncoded_eq (pc : PointCloud) (n : Nat) (ascii : Bool)
    (h : wfCloud pc n = true) :
    decodeEncoded pc ascii = some (canonCloud pc) := by
  have hvalid := wf_validAttr pc n h
  have hgfacts := wf_gens_facts pc n h
  have hgnodup := wf_gens_nodup pc n h
  have hwf2 := h
  unfold wfCloud at hwf2
  simp only [Bool.and_eq_true, decide_eq_true_eq, bne_iff_ne, ne_eq] at hwf2
  obtain ⟨⟨⟨⟨⟨hn0, hnd⟩, hposm⟩, hnormo⟩, hcolo⟩, hgall⟩ := hwf2
  cases hpos : pc.getAttr "positions" with
  | none => rw [hpos] at hposm; simp at hposm
  | some positions =>
  rw [hpos] at hposm
  simp only [wfTriple, Bool.and_eq_true, beq_iff_eq] at hposm
  obtain ⟨⟨⟨hprow, hpcol⟩, hpsup⟩, hplen⟩ := hposm
  have hwc := writeChar pc ascii positions n hpos hprow hn0 hvalid
  have hsup_g : ∀ kv ∈ gensOf pc, supportedDtype kv.2.dtype = true :=
    fun kv hkv => (hgfacts kv hkv).2.2.2.1
  have hres_g : ∀ kv ∈ gensOf pc, kv.1 ∉ reservedPropNames :=
    fun kv hkv => (hgfacts kv hkv).1
  have hglen : ∀ kv ∈ gensOf pc, kv.2.data.length = n :=
    fun kv hkv => (hgfacts kv hkv).2.2.2.2
  have hgrows : ∀ kv ∈ gensOf pc, kv.2.rows = n := fun kv hkv => (hgfacts kv hkv).2.1
  have hgcols : ∀ kv ∈ gensOf pc, kv.2.cols = 1 := fun kv hkv => (hgfacts kv hkv).2.2.1
  unfold decodeEncoded
  rw [hwc]
  cases hnorm : pc.getAttr "normals" with
  | some normals =>
    rw [hnorm] at hnormo
    simp only [wfOptTriple, wfTriple, Bool.and_eq_true, beq_iff_eq] at hnormo
    obtain ⟨⟨⟨hnrow, hncol⟩, hnsup⟩, hnlen⟩ := hnormo
    cases hcol : pc.getAttr "colors" with
    | some colors =>
      rw [hcol] at hcolo
      simp only [wfOptTriple, wfTriple, Bool.and_eq_true, beq_iff_eq] at hcolo
      obtain ⟨⟨⟨hcrow, hccol⟩, hcsup⟩, hclen⟩ := hcolo
      have hreg1 := regTriple_positions "vertex" n (initSession { attrs := [] })
        positions.dtype hpsup rfl
      simp only [initSession, PointCloud.setAttr, List.any_nil, List.nil_append,
        Bool.false_eq_true, if_false, List.length_nil] at hreg1
      have hreg1n := regTriple_normals "vertex" n
        { positions_init := true, normals_init := false, colors_init := false,
          state := { id_to_attr_state := tripleDesc "positions" n 0 },
          pc := { attrs := [("positions", Tensor.empty n 3 positions.dtype)] },
          reg_ids := someIds 0 3, warnings := [] } normals.dtype hnsup rfl
      simp only [PointCloud.setAttr, List.any_cons, List.any_nil, Bool.or_false,
        List.cons_append, List.nil_append] at hreg1n
      rw [show ((("positions" : String) == "normals")) = false from rfl] at hreg1n
      simp only [Bool.false_eq_true, if_false] at hreg1n
      rw [show (tripleDesc "positions" n 0).length = 3 from rfl] at hreg1n
      have hreg1c := regTriple_colors "vertex" n
        { positions_init := true, normals_init := true, colors_init := false,
          state := { id_to_attr_state :=
            tripleDesc "positions" n 0 ++ tripleDesc "normals" n 0 },
          pc := { attrs := [("positions", Tensor.empty n 3 positions.dtype),
                            ("normals", Tensor.empty n 3 normals.dtype)] },
          reg_ids := someIds 0 3 ++ someIds 3 3, warnings := [] } colors.dtype hcsup rfl
      simp only [PointCloud.setAttr, List.any_cons, List.any_nil, Bool.or_false,
        List.cons_append, List.nil_append] at hreg1c
      rw [show ((("positions" : String) == "colors")) = false from rfl,
          show ((("normals" : String) == "colors")) = false from rfl] at hreg1c
      simp only [Bool.false_eq_true, Bool.false_or, if_false] at hreg1c
      rw [show (tripleDesc "positions" n 0 ++ tripleDesc "normals" n 0).length = 6 from rfl] at hreg1c
      have hfresh1 : ∀ kv ∈ gensOf pc,
          ∀ x ∈ [("positions", Tensor.empty n 3 positions.dtype),
                 ("normals", Tensor.empty n 3 normals.dtype),
                 ("colors", Tensor.empty n 3 colors.dtype)], (x.1 == kv.1) = false := by
        intro kv hkv x hx
        have hk := gens_key_not_bucket pc kv hkv
        rcases List.mem_cons.mp hx with rfl | hx
        · simp only [beq_eq_false_iff_ne, ne_eq]
          exact fun he => hk.1 he.symm
        rcases List.mem_cons.mp hx with rfl | hx
        · simp only [beq_eq_false_iff_ne, ne_eq]
          exact fun he => hk.2.2 he.symm
        · rcases List.mem_singleton.mp hx with rfl
          simp only [beq_eq_false_iff_ne, ne_eq]
          exact fun he => hk.2.1 he.symm
      have hreg2 := regGens "vertex" n (gensOf pc)
        { positions_init := true, normals_init := true, colors_init := true,
          state := { id_to_attr_state :=
            (tripleDesc "positions" n 0 ++ tripleDesc "normals" n 0) ++
              tripleDesc "colors" n 0 },
          pc := { attrs := [("positions", Tensor.empty n 3 positions.dtype),
                            ("normals", Tensor.empty n 3 normals.dtype),
                            ("colors", Tensor.empty n 3 colors.dtype)] },
          reg_ids := (someIds 0 3 ++ someIds 3 3) ++ someIds 6 3, warnings := [] }
        hsup_g hres_g hfresh1 hgnodup
      simp only at hreg2
      have hprops : encodeProps pc positions n =
          [{ name := "x", type := GetPlyType positions.dtype, count := n },
           { name := "y", type := GetPlyType positions.dtype, count := n },
           { name := "z", type := GetPlyType positions.dtype, count := n }] ++
          ([{ name := "nx", type := GetPlyType normals.dtype, count := n },
            { name := "ny", type := GetPlyType normals.dtype, count := n },
            { name := "nz", type := GetPlyType normals.dtype, count := n }] ++
           ([{ name := "red", type := GetPlyType colors.dtype, count := n },
             { name := "green", type := GetPlyType colors.dtype, count := n },
             { name := "blue", type := GetPlyType colors.dtype, count := n }] ++
             (gensOf pc).map (fun kv =>
               { name := kv.1, type := GetPlyType kv.2.dtype, count := n }))) := by
        unfold encodeProps optTriple tripleProps
        rw [hnorm, hcol]
        simp
      have hregall : registerProperties "vertex" n (initSession { attrs := [] })
          (encodeProps pc positions n) = .ok
          { positions_init := true, normals_init := true, colors_init := true,
            state := { id_to_attr_state :=
              ((tripleDesc "positions" n 0 ++ tripleDesc "normals" n 0) ++
                tripleDesc "colors" n 0) ++
                (gensOf pc).map (fun kv => genDesc kv.1 n 0) },
            pc := { attrs := [("positions", Tensor.empty n 3 positions.dtype),
                              ("normals", Tensor.empty n 3 normals.dtype),
                              ("colors", Tensor.empty n 3 colors.dtype)] ++
              (gensOf pc).map (fun kv => (kv.1, Tensor.empty n 1 kv.2.dtype)) },
            reg_ids := ((someIds 0 3 ++ someIds 3 3) ++ someIds 6 3) ++
              someIds 9 (gensOf pc).length,
            warnings := [] } := by
        unfold initSession
        rw [hprops]
        rw [registerProperties_append "vertex" n _ _ _ _ hreg1]
        rw [registerProperties_append "vertex" n _ _ _ _ hreg1n]
        rw [registerProperties_append "vertex" n _ _ _ _ hreg1c]
        rw [hreg2]
        rfl
      have hroweq : ∀ i, encRow (encodePtrs pc positions n) i =
          rowOf [("positions", positions.dtype, positions.data),
                 ("normals", normals.dtype, normals.data),
                 ("colors", colors.dtype, colors.data)] (gensOf pc) i := by
        intro i
        unfold encodePtrs optTriple encRow rowOf
        rw [hnorm, hcol]
        simp only [List.nil_append, List.append_nil, List.flatMap_append,
          List.flatMap_cons, List.flatMap_nil, plyWriteGroup_three, plyWriteGroup_one,
          List.flatMap_map, flatMap_singleton_map, List.append_assoc]
      have hvals : encValues (encodePtrs pc positions n) n =
          ((List.range' 0 n).map
            (rowOf [("positions", positions.dtype, positions.data),
                    ("normals", normals.dtype, normals.data),
                    ("colors", colors.dtype, colors.data)] (gensOf pc))).flatten := by
        unfold encValues
        rw [List.flatMap_def, List.range_eq_range' n]
        exact congrArg List.flatten (List.map_congr_left (fun i _ => hroweq i))
      have hndall : ((["positions", "normals", "colors"] : List String) ++
          (gensOf pc).map Prod.fst).Nodup := by
        rw [List.nodup_append]
        refine ⟨by decide, hgnodup, ?_⟩
        intro a ha hb
        obtain ⟨kv, hkv, hk1⟩ := List.mem_map.mp hb
        have hk := gens_key_not_bucket pc kv hkv
        rcases List.mem_cons.mp ha with rfl | ha
        · exact hk.1 hk1
        rcases List.mem_cons.mp ha with rfl | ha
        · exact hk.2.2 hk1
        · rcases List.mem_singleton.mp ha with rfl
          exact hk.2.1 hk1
      have hblen1 : ∀ b ∈ [("positions", positions.dtype, positions.data),
          ("normals", normals.dtype, normals.data),
          ("colors", colors.dtype, colors.data)], (b.2.2 : List Value).length = 3 * n := by
        intro b hb
        rcases List.mem_cons.mp hb with rfl | hb
        · exact hplen
        rcases List.mem_cons.mp hb with rfl | hb
        · exact hnlen
        · rcases List.mem_singleton.mp hb with rfl
          exact hclen
      have hrowsfull := readRowsFull [("positions", positions.dtype, positions.data),
          ("normals", normals.dtype, normals.data),
          ("colors", colors.dtype, colors.data)]
        (gensOf pc) n hblen1 hglen hndall n 0 (Nat.zero_add n)
      have hst : ({ id_to_attr_state :=
          ((tripleDesc "positions" n 0 ++ tripleDesc "normals" n 0) ++
            tripleDesc "colors" n 0) ++
            (gensOf pc).map (fun kv => genDesc kv.1 n 0) } : PLYReaderState) =
          { id_to_attr_state := sessionDescs [("positions", positions.dtype, positions.data), ("normals", normals.dtype, normals.data), ("colors", colors.dtype, colors.data)] (gensOf pc) n 0 } := by
        unfold sessionDescs
        simp [List.append_assoc]
      have hcl : ({ attrs := [("positions", Tensor.empty n 3 positions.dtype),
          ("normals", Tensor.empty n 3 normals.dtype),
          ("colors", Tensor.empty n 3 colors.dtype)] ++
          (gensOf pc).map (fun kv => (kv.1, Tensor.empty n 1 kv.2.dtype)) } : PointCloud) =
          sessionCloud [("positions", positions.dtype, positions.data),
            ("normals", normals.dtype, normals.data),
            ("colors", colors.dtype, colors.data)] (gensOf pc) n 0 := by
        unfold sessionCloud bucketAttrs genAttrs
        simp only [List.map_cons, List.map_nil, Nat.mul_zero]
        rw [tensor_empty_fill3 n positions.dtype positions.data,
            tensor_empty_fill3 n normals.dtype normals.data,
            tensor_empty_fill3 n colors.dtype colors.data]
        congr 1
        congr 1
        exact List.map_congr_left
          (fun kv _ => by rw [tensor_empty_fill1 n kv.2.dtype kv.2.data])
      have hsome1 : someIds 0 3 ++ someIds 3 3 = someIds 0 6 := by
        have := someIds_append 0 3 3
        simpa using this.symm
      have hsome2 : someIds 0 6 ++ someIds 6 3 = someIds 0 9 := by
        have := someIds_append 0 6 3
        simpa using this.symm
      have hsome3 : someIds 0 9 ++ someIds 9 (gensOf pc).length =
          someIds 0 (9 + (gensOf pc).length) := (someIds_append 0 9 _).symm
      have hrows : plyReadRows (((someIds 0 3 ++ someIds 3 3) ++ someIds 6 3) ++
          someIds 9 (gensOf pc).length) n
          (encValues (encodePtrs pc positions n) n)
          ({ id_to_attr_state :=
              ((tripleDesc "positions" n 0 ++ tripleDesc "normals" n 0) ++
                tripleDesc "colors" n 0) ++
                (gensOf pc).map (fun kv => genDesc kv.1 n 0) },
           { attrs := [("positions", Tensor.empty n 3 positions.dtype),
                       ("normals", Tensor.empty n 3 normals.dtype),
                       ("colors", Tensor.empty n 3 colors.dtype)] ++
              (gensOf pc).map (fun kv => (kv.1, Tensor.empty n 1 kv.2.dtype)) }) =
          (some ({ id_to_attr_state := sessionDescs [("positions", positions.dtype, positions.data), ("normals", normals.dtype, normals.data), ("colors", colors.dtype, colors.data)] (gensOf pc) n n },
                 sessionCloud [("positions", positions.dtype, positions.data),
                   ("normals", normals.dtype, normals.data),
                   ("colors", colors.dtype, colors.data)] (gensOf pc) n n), []) := by
        rw [hsome1, hsome2, hsome3, hvals, hst, hcl]
        have h3g : 9 + (gensOf pc).length =
            3 * ([("positions", positions.dtype, positions.data),
                  ("normals", normals.dtype, normals.data),
                  ("colors", colors.dtype, colors.data)] : List BucketSpec).length +
              (gensOf pc).length := by simp
        rw [h3g]
        exact hrowsfull
      have hfinal : sessionCloud [("positions", positions.dtype, positions.data),
          ("normals", normals.dtype, normals.data),
          ("colors", colors.dtype, colors.data)] (gensOf pc) n n = canonCloud pc := by
        unfold sessionCloud canonCloud bucketAttrs genAttrs
        rw [hpos, hnorm, hcol]
        simp only [List.map_cons, List.map_nil, List.append_nil, List.nil_append,
          List.cons_append, List.singleton_append]
        rw [fillUp_full positions.data (3 * n) hplen]
        rw [fillUp_full normals.data (3 * n) hnlen]
        rw [fillUp_full colors.data (3 * n) hclen]
        have hpeq : ({ rows := n, cols := 3, dtype := positions.dtype, data := positions.data } : Tensor) = positions := by
          rw [← hprow, ← hpcol]
        have hneq : ({ rows := n, cols := 3, dtype := normals.dtype, data := normals.data } : Tensor) = normals := by
          rw [← hnrow, ← hncol]
        have hceq : ({ rows := n, cols := 3, dtype := colors.dtype, data := colors.data } : Tensor) = colors := by
          rw [← hcrow, ← hccol]
        rw [hpeq, hneq, hceq]
        have hmapeq : (gensOf pc).map (fun kv => (kv.1, ({ rows := n, cols := 1, dtype := kv.2.dtype, data := fillUp kv.2.data n n } : Tensor))) = (gensOf pc).map (fun kv => kv) :=
          List.map_congr_left (fun kv hkv => by
            rw [fillUp_full kv.2.data n (hglen kv hkv), ← hgrows kv hkv, ← hgcols kv hkv])
        rw [hmapeq, List.map_id']
      have hread : ReadPointCloudFromPLY
          { openOk := true, headerOk := true, ascii := ascii,
            comments := ["Created by Open3D"],
            elements := [{ name := "vertex", size := n,
                           properties := encodeProps pc positions n }],
            values := encValues (encodePtrs pc positions n) n } { attrs := [] } =
          (.ok (canonCloud pc),
           [ProgressEvent.setTotal n] ++ [] ++ [ProgressEvent.finish]) := by
        rw [read_of_registered { openOk := true, headerOk := true, ascii := ascii, comments := ["Created by Open3D"], elements := [{ name := "vertex", size := n, properties := encodeProps pc positions n }], values := encValues (encodePtrs pc positions n) n } { attrs := [] } { name := "vertex", size := n, properties := encodeProps pc positions n } _ _ _ _ rfl rfl rfl hregall hrows]
        rw [hfinal]
      simp only [hread, ReadResult.toCloud]
    | none =>
      have hreg1 := regTriple_positions "vertex" n (initSession { attrs := [] })
        positions.dtype hpsup rfl
      simp only [initSession, PointCloud.setAttr, List.any_nil, List.nil_append,
        Bool.false_eq_true, if_false, List.length_nil] at hreg1
      have hreg1n := regTriple_normals "vertex" n
        { positions_init := true, normals_init := false, colors_init := false,
          state := { id_to_attr_state := tripleDesc "positions" n 0 },
          pc := { attrs := [("positions", Tensor.empty n 3 positions.dtype)] },
          reg_ids := someIds 0 3, warnings := [] } normals.dtype hnsup rfl
      simp only [PointCloud.setAttr, List.any_cons, List.any_nil, Bool.or_false,
        List.cons_append, List.nil_append] at hreg1n
      rw [show ((("positions" : String) == "normals")) = false from rfl] at hreg1n
      simp only [Bool.false_eq_true, if_false] at hreg1n
      rw [show (tripleDesc "positions" n 0).length = 3 from rfl] at hreg1n
      have hfresh1 : ∀ kv ∈ gensOf pc,
          ∀ x ∈ [("positions", Tensor.empty n 3 positions.dtype),
                 ("normals", Tensor.empty n 3 normals.dtype)], (x.1 == kv.1) = false := by
        intro kv hkv x hx
        have hk := gens_key_not_bucket pc kv hkv
        rcases List.mem_cons.mp hx with rfl | hx
        · simp only [beq_eq_false_iff_ne, ne_eq]
          exact fun he => hk.1 he.symm
        · rcases List.mem_singleton.mp hx with rfl
          simp only [beq_eq_false_iff_ne, ne_eq]
          exact fun he => hk.2.2 he.symm
      have hreg2 := regGens "vertex" n (gensOf pc)
        { positions_init := true, normals_init := true, colors_init := false,
          state := { id_to_attr_state :=
            tripleDesc "positions" n 0 ++ tripleDesc "normals" n 0 },
          pc := { attrs := [("positions", Tensor.empty n 3 positions.dtype),
                            ("normals", Tensor.empty n 3 normals.dtype)] },
          reg_ids := someIds 0 3 ++ someIds 3 3, warnings := [] }
        hsup_g hres_g hfresh1 hgnodup
      simp only at hreg2
      have hprops : encodeProps pc positions n =
          [{ name := "x", type := GetPlyType positions.dtype, count := n },
           { name := "y", type := GetPlyType positions.dtype, count := n },
           { name := "z", type := GetPlyType positions.dtype, count := n }] ++
          ([{ name := "nx", type := GetPlyType normals.dtype, count := n },
            { name := "ny", type := GetPlyType normals.dtype, count := n },
            { name := "nz", type := GetPlyType normals.dtype, count := n }] ++
            (gensOf pc).map (fun kv =>
              { name := kv.1, type := GetPlyType kv.2.dtype, count := n })) := by
        unfold encodeProps optTriple tripleProps
        rw [hnorm, hcol]
        simp
      have hregall : registerProperties "vertex" n (initSession { attrs := [] })
          (encodeProps pc positions n) = .ok
          { positions_init := true, normals_init := true, colors_init := false,
            state := { id_to_attr_state :=
              (tripleDesc "positions" n 0 ++ tripleDesc "normals" n 0) ++
                (gensOf pc).map (fun kv => genDesc kv.1 n 0) },
            pc := { attrs := [("positions", Tensor.empty n 3 positions.dtype),
                              ("normals", Tensor.empty n 3 normals.dtype)] ++
              (gensOf pc).map (fun kv => (kv.1, Tensor.empty n 1 kv.2.dtype)) },
            reg_ids := (someIds 0 3 ++ someIds 3 3) ++ someIds 6 (gensOf pc).length,
            warnings := [] } := by
        unfold initSession
        rw [hprops]
        rw [registerProperties_append "vertex" n _ _ _ _ hreg1]
        rw [registerProperties_append "vertex" n _ _ _ _ hreg1n]
        rw [hreg2]
        rfl
      have hroweq : ∀ i, encRow (encodePtrs pc positions n) i =
          rowOf [("positions", positions.dtype, positions.data),
                 ("normals", normals.dtype, normals.data)] (gensOf pc) i := by
        intro i
        unfold encodePtrs optTriple encRow rowOf
        rw [hnorm, hcol]
        simp only [List.nil_append, List.append_nil, List.flatMap_append,
          List.flatMap_cons, List.flatMap_nil, plyWriteGroup_three, plyWriteGroup_one,
          List.flatMap_map, flatMap_singleton_map, List.append_assoc]
      have hvals : encValues (encodePtrs pc positions n) n =
          ((List.range' 0 n).map
            (rowOf [("positions", positions.dtype, positions.data),
                    ("normals", normals.dtype, normals.data)] (gensOf pc))).flatten := by
        unfold encValues
        rw [List.flatMap_def, List.range_eq_range' n]
        exact congrArg List.flatten (List.map_congr_left (fun i _ => hroweq i))
      have hndall : ((["positions", "normals"] : List String) ++
          (gensOf pc).map Prod.fst).Nodup := by
        rw [List.nodup_append]
        refine ⟨by decide, hgnodup, ?_⟩
        intro a ha hb
        obtain ⟨kv, hkv, hk1⟩ := List.mem_map.mp hb
        have hk := gens_key_not_bucket pc kv hkv
        rcases List.mem_cons.mp ha with rfl | ha
        · exact hk.1 hk1
        · rcases List.mem_singleton.mp ha with rfl
          exact hk.2.2 hk1
      have hblen1 : ∀ b ∈ [("positions", positions.dtype, positions.data),
          ("normals", normals.dtype, normals.data)], (b.2.2 : List Value).length = 3 * n := by
        intro b hb
        rcases List.mem_cons.mp hb with rfl | hb
        · exact hplen
        · rcases List.mem_singleton.mp hb with rfl
          exact hnlen
      have hrowsfull := readRowsFull [("positions", positions.dtype, positions.data),
          ("normals", normals.dtype, normals.data)]
        (gensOf pc) n hblen1 hglen hndall n 0 (Nat.zero_add n)
      have hst : ({ id_to_attr_state :=
          (tripleDesc "positions" n 0 ++ tripleDesc "normals" n 0) ++
            (gensOf pc).map (fun kv => genDesc kv.1 n 0) } : PLYReaderState) =
          { id_to_attr_state := sessionDescs [("positions", positions.dtype, positions.data), ("normals", normals.dtype, normals.data)] (gensOf pc) n 0 } := by
        unfold sessionDescs
        simp [List.append_assoc]
      have hcl : ({ attrs := [("positions", Tensor.empty n 3 positions.dtype),
          ("normals", Tensor.empty n 3 normals.dtype)] ++
          (gensOf pc).map (fun kv => (kv.1, Tensor.empty n 1 kv.2.dtype)) } : PointCloud) =
          sessionCloud [("positions", positions.dtype, positions.data),
            ("normals", normals.dtype, normals.data)] (gensOf pc) n 0 := by
        unfold sessionCloud bucketAttrs genAttrs
        simp only [List.map_cons, List.map_nil, Nat.mul_zero]
        rw [tensor_empty_fill3 n positions.dtype positions.data,
            tensor_empty_fill3 n normals.dtype normals.data]
        congr 1
        congr 1
        exact List.map_congr_left
          (fun kv _ => by rw [tensor_empty_fill1 n kv.2.dtype kv.2.data])
      have hsome1 : someIds 0 3 ++ someIds 3 3 = someIds 0 6 := by
        have := someIds_append 0 3 3
        simpa using this.symm
      have hsome2 : someIds 0 6 ++ someIds 6 (gensOf pc).length =
          someIds 0 (6 + (gensOf pc).length) := (someIds_append 0 6 _).symm
      have hrows : plyReadRows ((someIds 0 3 ++ someIds 3 3) ++
          someIds 6 (gensOf pc).length) n
          (encValues (encodePtrs pc positions n) n)
          ({ id_to_attr_state :=
              (tripleDesc "positions" n 0 ++ tripleDesc "normals" n 0) ++
                (gensOf pc).map (fun kv => genDesc kv.1 n 0) },
           { attrs := [("positions", Tensor.empty n 3 positions.dtype),
                       ("normals", Tensor.empty n 3 normals.dtype)] ++
              (gensOf pc).map (fun kv => (kv.1, Tensor.empty n 1 kv.2.dtype)) }) =
          (some ({ id_to_attr_state := sessionDescs [("positions", positions.dtype, positions.data), ("normals", normals.dtype, normals.data)] (gensOf pc) n n },
                 sessionCloud [("positions", positions.dtype, positions.data),
                   ("normals", normals.dtype, normals.data)] (gensOf pc) n n), []) := by
        rw [hsome1, hsome2, hvals, hst, hcl]
        have h3g : 6 + (gensOf pc).length =
            3 * ([("positions", positions.dtype, positions.data),
                  ("normals", normals.dtype, normals.data)] : List BucketSpec).length +
              (gensOf pc).length := by simp
        rw [h3g]
        exact hrowsfull
      have hfinal : sessionCloud [("positions", positions.dtype, positions.data),
          ("normals", normals.dtype, normals.data)] (gensOf pc) n n = canonCloud pc := by
        unfold sessionCloud canonCloud bucketAttrs genAttrs
        rw [hpos, hnorm, hcol]
        simp only [List.map_cons, List.map_nil, List.append_nil, List.nil_append,
          List.cons_append, List.singleton_append]
        rw [fillUp_full positions.data (3 * n) hplen]
        rw [fillUp_full normals.data (3 * n) hnlen]
        have hpeq : ({ rows := n, cols := 3, dtype := positions.dtype, data := positions.data } : Tensor) = positions := by
          rw [← hprow, ← hpcol]
        have hneq : ({ rows := n, cols := 3, dtype := normals.dtype, data := normals.data } : Tensor) = normals := by
          rw [← hnrow, ← hncol]
        rw [hpeq, hneq]
        have hmapeq : (gensOf pc).map (fun kv => (kv.1, ({ rows := n, cols := 1, dtype := kv.2.dtype, data := fillUp kv.2.data n n } : Tensor))) = (gensOf pc).map (fun kv => kv) :=
          List.map_congr_left (fun kv hkv => by
            rw [fillUp_full kv.2.data n (hglen kv hkv), ← hgrows kv hkv, ← hgcols kv hkv])
        rw [hmapeq, List.map_id']
      have hread : ReadPointCloudFromPLY
          { openOk := true, headerOk := true, ascii := ascii,
            comments := ["Created by Open3D"],
            elements := [{ name := "vertex", size := n,
                           properties := encodeProps pc positions n }],
            values := encValues (encodePtrs pc positions n) n } { attrs := [] } =
          (.ok (canonCloud pc),
           [ProgressEvent.setTotal n] ++ [] ++ [ProgressEvent.finish]) := by
        rw [read_of_registered { openOk := true, headerOk := true, ascii := ascii, comments := ["Created by Open3D"], elements := [{ name := "vertex", size := n, properties := encodeProps pc positions n }], values := encValues (encodePtrs pc positions n) n } { attrs := [] } { name := "vertex", size := n, properties := encodeProps pc positions n } _ _ _ _ rfl rfl rfl hregall hrows]
        rw [hfinal]
      simp only [hread, ReadResult.toCloud]
  | none =>
  cases hcol : pc.getAttr "colors" with
  | some colors =>
    rw [hcol] at hcolo
    simp only [wfOptTriple, wfTriple, Bool.and_eq_true, beq_iff_eq] at hcolo
    obtain ⟨⟨⟨hcrow, hccol⟩, hcsup⟩, hclen⟩ := hcolo
    have hreg1 := regTriple_positions "vertex" n (initSession { attrs := [] })
      positions.dtype hpsup rfl
    simp only [initSession, PointCloud.setAttr, List.any_nil, List.nil_append,
      Bool.false_eq_true, if_false, List.length_nil] at hreg1
    have hreg1c := regTriple_colors "vertex" n
      { positions_init := true, normals_init := false, colors_init := false,
        state := { id_to_attr_state := tripleDesc "positions" n 0 },
        pc := { attrs := [("positions", Tensor.empty n 3 positions.dtype)] },
        reg_ids := someIds 0 3, warnings := [] } colors.dtype hcsup rfl
    simp only [PointCloud.setAttr, List.any_cons, List.any_nil, Bool.or_false,
      List.cons_append, List.nil_append] at hreg1c
    rw [show ((("positions" : String) == "colors")) = false from rfl] at hreg1c
    simp only [Bool.false_eq_true, if_false] at hreg1c
    rw [show (tripleDesc "positions" n 0).length = 3 from rfl] at hreg1c
    have hfresh1 : ∀ kv ∈ gensOf pc,
        ∀ x ∈ [("positions", Tensor.empty n 3 positions.dtype),
               ("colors", Tensor.empty n 3 colors.dtype)], (x.1 == kv.1) = false := by
      intro kv hkv x hx
      have hk := gens_key_not_bucket pc kv hkv
      rcases List.mem_cons.mp hx with rfl | hx
      · simp only [beq_eq_false_iff_ne, ne_eq]
        exact fun he => hk.1 he.symm
      · rcases List.mem_singleton.mp hx with rfl
        simp only [beq_eq_false_iff_ne, ne_eq]
        exact fun he => hk.2.1 he.symm
    have hreg2 := regGens "vertex" n (gensOf pc)
      { positions_init := true, normals_init := false, colors_init := true,
        state := { id_to_attr_state :=
          tripleDesc "positions" n 0 ++ tripleDesc "colors" n 0 },
        pc := { attrs := [("positions", Tensor.empty n 3 positions.dtype),
                          ("colors", Tensor.empty n 3 colors.dtype)] },
        reg_ids := someIds 0 3 ++ someIds 3 3, warnings := [] }
      hsup_g hres_g hfresh1 hgnodup
    simp only at hreg2
    have hprops : encodeProps pc positions n =
        [{ name := "x", type := GetPlyType positions.dtype, count := n },
         { name := "y", type := GetPlyType positions.dtype, count := n },
         { name := "z", type := GetPlyType positions.dtype, count := n }] ++
        ([{ name := "red", type := GetPlyType colors.dtype, count := n },
          { name := "green", type := GetPlyType colors.dtype, count := n },
          { name := "blue", type := GetPlyType colors.dtype, count := n }] ++
          (gensOf pc).map (fun kv =>
            { name := kv.1, type := GetPlyType kv.2.dtype, count := n })) := by
      unfold encodeProps optTriple tripleProps
      rw [hnorm, hcol]
      simp
    have hregall : registerProperties "vertex" n (initSession { attrs := [] })
        (encodeProps pc positions n) = .ok
        { positions_init := true, normals_init := false, colors_init := true,
          state := { id_to_attr_state :=
            (tripleDesc "positions" n 0 ++ tripleDesc "colors" n 0) ++
              (gensOf pc).map (fun kv => genDesc kv.1 n 0) },
          pc := { attrs := [("positions", Tensor.empty n 3 positions.dtype),
                            ("colors", Tensor.empty n 3 colors.dtype)] ++
            (gensOf pc).map (fun kv => (kv.1, Tensor.empty n 1 kv.2.dtype)) },
          reg_ids := (someIds 0 3 ++ someIds 3 3) ++ someIds 6 (gensOf pc).length,
          warnings := [] } := by
      unfold initSession
      rw [hprops]
      rw [registerProperties_append "vertex" n _ _ _ _ hreg1]
      rw [registerProperties_append "vertex" n _ _ _ _ hreg1c]
      rw [hreg2]
      rfl
    have hroweq : ∀ i, encRow (encodePtrs pc positions n) i =
        rowOf [("positions", positions.dtype, positions.data),
               ("colors", colors.dtype, colors.data)] (gensOf pc) i := by
      intro i
      unfold encodePtrs optTriple encRow rowOf
      rw [hnorm, hcol]
      simp only [List.nil_append, List.append_nil, List.flatMap_append,
        List.flatMap_cons, List.flatMap_nil, plyWriteGroup_three, plyWriteGroup_one,
        List.flatMap_map, flatMap_singleton_map, List.append_assoc]
    have hvals : encValues (encodePtrs pc positions n) n =
        ((List.range' 0 n).map
          (rowOf [("positions", positions.dtype, positions.data),
                  ("colors", colors.dtype, colors.data)] (gensOf pc))).flatten := by
      unfold encValues
      rw [List.flatMap_def, List.range_eq_range' n]
      exact congrArg List.flatten (List.map_congr_left (fun i _ => hroweq i))
    have hndall : ((["positions", "colors"] : List String) ++
        (gensOf pc).map Prod.fst).Nodup := by
      rw [List.nodup_append]
      refine ⟨by decide, hgnodup, ?_⟩
      intro a ha hb
      obtain ⟨kv, hkv, hk1⟩ := List.mem_map.mp hb
      have hk := gens_key_not_bucket pc kv hkv
      rcases List.mem_cons.mp ha with rfl | ha
      · exact hk.1 hk1
      · rcases List.mem_singleton.mp ha with rfl
        exact hk.2.1 hk1
    have hblen1 : ∀ b ∈ [("positions", positions.dtype, positions.data),
        ("colors", colors.dtype, colors.data)], (b.2.2 : List Value).length = 3 * n := by
      intro b hb
      rcases List.mem_cons.mp hb with rfl | hb
      · exact hplen
      · rcases List.mem_singleton.mp hb with rfl
        exact hclen
    have hrowsfull := readRowsFull [("positions", positions.dtype, positions.data),
        ("colors", colors.dtype, colors.data)]
      (gensOf pc) n hblen1 hglen hndall n 0 (Nat.zero_add n)
    have hst : ({ id_to_attr_state :=
        (tripleDesc "positions" n 0 ++ tripleDesc "colors" n 0) ++
          (gensOf pc).map (fun kv => genDesc kv.1 n 0) } : PLYReaderState) =
        { id_to_attr_state := sessionDescs [("positions", positions.dtype, positions.data), ("colors", colors.dtype, colors.data)] (gensOf pc) n 0 } := by
      unfold sessionDescs
      simp [List.append_assoc]
    have hcl : ({ attrs := [("positions", Tensor.empty n 3 positions.dtype),
        ("colors", Tensor.empty n 3 colors.dtype)] ++
        (gensOf pc).map (fun kv => (kv.1, Tensor.empty n 1 kv.2.dtype)) } : PointCloud) =
        sessionCloud [("positions", positions.dtype, positions.data),
          ("colors", colors.dtype, colors.data)] (gensOf pc) n 0 := by
      unfold sessionCloud bucketAttrs genAttrs
      simp only [List.map_cons, List.map_nil, Nat.mul_zero]
      congr 1
      congr 1
      · rw [tensor_empty_fill3 n positions.dtype positions.data,
            tensor_empty_fill3 n colors.dtype colors.data]
      · exact List.map_congr_left
          (fun kv _ => by rw [tensor_empty_fill1 n kv.2.dtype kv.2.data])
    have hsome1 : someIds 0 3 ++ someIds 3 3 = someIds 0 6 := by
      have := someIds_append 0 3 3
      simpa using this.symm
    have hsome2 : someIds 0 6 ++ someIds 6 (gensOf pc).length =
        someIds 0 (6 + (gensOf pc).length) := (someIds_append 0 6 _).symm
    have hrows : plyReadRows ((someIds 0 3 ++ someIds 3 3) ++
        someIds 6 (gensOf pc).length) n
        (encValues (encodePtrs pc positions n) n)
        ({ id_to_attr_state :=
            (tripleDesc "positions" n 0 ++ tripleDesc "colors" n 0) ++
              (gensOf pc).map (fun kv => genDesc kv.1 n 0) },
         { attrs := [("positions", Tensor.empty n 3 positions.dtype),
                     ("colors", Tensor.empty n 3 colors.dtype)] ++
            (gensOf pc).map (fun kv => (kv.1, Tensor.empty n 1 kv.2.dtype)) }) =
        (some ({ id_to_attr_state := sessionDescs
                  [("positions", positions.dtype, positions.data),
                   ("colors", colors.dtype, colors.data)] (gensOf pc) n n },
               sessionCloud [("positions", positions.dtype, positions.data),
                 ("colors", colors.dtype, colors.data)] (gensOf pc) n n), []) := by
      rw [hsome1, hsome2, hvals, hst, hcl]
      have h3g : 6 + (gensOf pc).length =
          3 * ([("positions", positions.dtype, positions.data),
                ("colors", colors.dtype, colors.data)] : List BucketSpec).length +
            (gensOf pc).length := by simp
      rw [h3g]
      exact hrowsfull
    have hfinal : sessionCloud [("positions", positions.dtype, positions.data),
        ("colors", colors.dtype, colors.data)] (gensOf pc) n n = canonCloud pc := by
      unfold sessionCloud canonCloud bucketAttrs genAttrs
      rw [hpos, hnorm, hcol]
      simp only [List.map_cons, List.map_nil, List.append_nil, List.nil_append,
        List.cons_append, List.singleton_append]
      rw [fillUp_full positions.data (3 * n) hplen]
      rw [fillUp_full colors.data (3 * n) hclen]
      have hpeq : ({ rows := n, cols := 3, dtype := positions.dtype, data := positions.data } : Tensor) = positions := by
        rw [← hprow, ← hpcol]
      have hceq : ({ rows := n, cols := 3, dtype := colors.dtype, data := colors.data } : Tensor) = colors := by
        rw [← hcrow, ← hccol]
      rw [hpeq, hceq]
      have hmapeq : (gensOf pc).map (fun kv => (kv.1, ({ rows := n, cols := 1, dtype := kv.2.dtype, data := fillUp kv.2.data n n } : Tensor))) = (gensOf pc).map (fun kv => kv) :=
        List.map_congr_left (fun kv hkv => by
          rw [fillUp_full kv.2.data n (hglen kv hkv), ← hgrows kv hkv, ← hgcols kv hkv])
      rw [hmapeq, List.map_id']
    have hread : ReadPointCloudFromPLY
        { openOk := true, headerOk := true, ascii := ascii,
          comments := ["Created by Open3D"],
          elements := [{ name := "vertex", size := n,
                         properties := encodeProps pc positions n }],
          values := encValues (encodePtrs pc positions n) n } { attrs := [] } =
        (.ok (canonCloud pc),
         [ProgressEvent.setTotal n] ++ [] ++ [ProgressEvent.finish]) := by
      rw [read_of_registered { openOk := true, headerOk := true, ascii := ascii, comments := ["Created by Open3D"], elements := [{ name := "vertex", size := n, properties := encodeProps pc positions n }], values := encValues (encodePtrs pc positions n) n } { attrs := [] } { name := "vertex", size := n, properties := encodeProps pc positions n } _ _ _ _ rfl rfl rfl hregall hrows]
      rw [hfinal]
    simp only [hread, ReadResult.toCloud]
  | none =>
  have hreg1 := regTriple_positions "vertex" n (initSession { attrs := [] })
    positions.dtype hpsup rfl
  simp only [initSession, PointCloud.setAttr, List.any_nil, List.nil_append,
    Bool.false_eq_true, if_false, List.length_nil] at hreg1
  have hfresh1 : ∀ kv ∈ gensOf pc,
      ∀ x ∈ [("positions", Tensor.empty n 3 positions.dtype)], (x.1 == kv.1) = false := by
    intro kv hkv x hx
    rcases List.mem_singleton.mp hx with rfl
    have hne := (gens_key_not_bucket pc kv hkv).1
    simp only [beq_eq_false_iff_ne, ne_eq]
    exact fun he => hne he.symm
  have hreg2 := regGens "vertex" n (gensOf pc)
    { positions_init := true, normals_init := false, colors_init := false,
      state := { id_to_attr_state := tripleDesc "positions" n 0 },
      pc := { attrs := [("positions", Tensor.empty n 3 positions.dtype)] },
      reg_ids := someIds 0 3, warnings := [] }
    hsup_g hres_g hfresh1 hgnodup
  simp only at hreg2
  have hprops : encodeProps pc positions n =
      [{ name := "x", type := GetPlyType positions.dtype, count := n },
       { name := "y", type := GetPlyType positions.dtype, count := n },
       { name := "z", type := GetPlyType positions.dtype, count := n }] ++
        (gensOf pc).map (fun kv =>
          { name := kv.1, type := GetPlyType kv.2.dtype, count := n }) := by
    unfold encodeProps optTriple tripleProps
    rw [hnorm, hcol]
    simp
  have hregall : registerProperties "vertex" n (initSession { attrs := [] })
      (encodeProps pc positions n) = .ok
      { positions_init := true, normals_init := false, colors_init := false,
        state := { id_to_attr_state :=
          tripleDesc "positions" n 0 ++ (gensOf pc).map (fun kv => genDesc kv.1 n 0) },
        pc := { attrs := [("positions", Tensor.empty n 3 positions.dtype)] ++
          (gensOf pc).map (fun kv => (kv.1, Tensor.empty n 1 kv.2.dtype)) },
        reg_ids := someIds 0 3 ++ someIds 3 (gensOf pc).length,
        warnings := [] } := by
    unfold initSession
    rw [hprops]
    rw [registerProperties_append "vertex" n _ _ _ _ hreg1]
    rw [hreg2]
    rfl
  have hroweq : ∀ i, encRow (encodePtrs pc positions n) i =
      rowOf [("positions", positions.dtype, positions.data)] (gensOf pc) i := by
    intro i
    unfold encodePtrs optTriple encRow rowOf
    rw [hnorm, hcol]
    simp only [List.nil_append, List.append_nil, List.flatMap_append, List.flatMap_cons,
      List.flatMap_nil, plyWriteGroup_three, plyWriteGroup_one, List.flatMap_map,
      flatMap_singleton_map]
  have hvals : encValues (encodePtrs pc positions n) n =
      ((List.range' 0 n).map
        (rowOf [("positions", positions.dtype, positions.data)] (gensOf pc))).flatten := by
    unfold encValues
    rw [List.flatMap_def, List.range_eq_range' n]
    exact congrArg List.flatten (List.map_congr_left (fun i _ => hroweq i))
  have hndall : ((["positions"] : List String) ++ (gensOf pc).map Prod.fst).Nodup := by
    rw [List.nodup_append]
    refine ⟨List.nodup_singleton _, hgnodup, ?_⟩
    intro a ha hb
    rcases List.mem_singleton.mp ha with rfl
    obtain ⟨kv, hkv, hk1⟩ := List.mem_map.mp hb
    exact (gens_key_not_bucket pc kv hkv).1 hk1
  have hblen1 : ∀ b ∈ [("positions", positions.dtype, positions.data)],
      (b.2.2 : List Value).length = 3 * n := by
    intro b hb
    rcases List.mem_singleton.mp hb with rfl
    exact hplen
  have hrowsfull := readRowsFull [("positions", positions.dtype, positions.data)]
    (gensOf pc) n hblen1 hglen hndall n 0 (Nat.zero_add n)
  have hst : ({ id_to_attr_state := tripleDesc "positions" n 0 ++
      (gensOf pc).map (fun kv => genDesc kv.1 n 0) } : PLYReaderState) =
      { id_to_attr_state :=
        sessionDescs [("positions", positions.dtype, positions.data)] (gensOf pc) n 0 } := by
    unfold sessionDescs
    simp
  have hcl : ({ attrs := [("positions", Tensor.empty n 3 positions.dtype)] ++
      (gensOf pc).map (fun kv => (kv.1, Tensor.empty n 1 kv.2.dtype)) } : PointCloud) =
      sessionCloud [("positions", positions.dtype, positions.data)] (gensOf pc) n 0 := by
    unfold sessionCloud bucketAttrs genAttrs
    simp only [List.map_cons, List.map_nil, Nat.mul_zero]
    congr 1
    congr 1
    · rw [tensor_empty_fill3 n positions.dtype positions.data]
    · exact List.map_congr_left
        (fun kv _ => by rw [tensor_empty_fill1 n kv.2.dtype kv.2.data])
  have hrows : plyReadRows (someIds 0 3 ++ someIds 3 (gensOf pc).length) n
      (encValues (encodePtrs pc positions n) n)
      ({ id_to_attr_state := tripleDesc "positions" n 0 ++
          (gensOf pc).map (fun kv => genDesc kv.1 n 0) },
       { attrs := [("positions", Tensor.empty n 3 positions.dtype)] ++
          (gensOf pc).map (fun kv => (kv.1, Tensor.empty n 1 kv.2.dtype)) }) =
      (some ({ id_to_attr_state := sessionDescs
                [("positions", positions.dtype, positions.data)] (gensOf pc) n n },
             sessionCloud [("positions", positions.dtype, positions.data)]
               (gensOf pc) n n), []) := by
    rw [← someIds_append 0 3 (gensOf pc).length, hvals, hst, hcl]
    have h3g : 3 + (gensOf pc).length =
        3 * ([("positions", positions.dtype, positions.data)] : List BucketSpec).length +
          (gensOf pc).length := by simp
    rw [h3g]
    exact hrowsfull
  have hfinal : sessionCloud [("positions", positions.dtype, positions.data)]
      (gensOf pc) n n = canonCloud pc := by
    unfold sessionCloud canonCloud bucketAttrs genAttrs
    rw [hpos, hnorm, hcol]
    simp only [List.map_cons, List.map_nil, List.append_nil, List.nil_append]
    congr 1
    congr 1
    · rw [fillUp_full positions.data (3 * n) hplen]
      have hpeq : ({ rows := n, cols := 3, dtype := positions.dtype, data := positions.data } : Tensor) = positions := by
        rw [← hprow, ← hpcol]
      rw [hpeq]
    · have hmapeq : (gensOf pc).map (fun kv => (kv.1, ({ rows := n, cols := 1, dtype := kv.2.dtype, data := fillUp kv.2.data n n } : Tensor))) = (gensOf pc).map (fun kv => kv) :=
        List.map_congr_left (fun kv hkv => by
          rw [fillUp_full kv.2.data n (hglen kv hkv), ← hgrows kv hkv, ← hgcols kv hkv])
      rw [hmapeq, List.map_id']
  have hread : ReadPointCloudFromPLY
      { openOk := true, headerOk := true, ascii := ascii,
        comments := ["Created by Open3D"],
        elements := [{ name := "vertex", size := n,
                       properties := encodeProps pc positions n }],
        values := encValues (encodePtrs pc positions n) n } { attrs := [] } =
      (.ok (canonCloud pc),
       [ProgressEvent.setTotal n] ++ [] ++ [ProgressEvent.finish]) := by
    rw [read_of_registered { openOk := true, headerOk := true, ascii := ascii, comments := ["Created by Open3D"], elements := [{ name := "vertex", size := n, properties := encodeProps pc positions n }], values := encValues (encodePtrs pc positions n) n } { attrs := [] } { name := "vertex", size := n, properties := encodeProps pc positions n } _ _ _ _ rfl rfl rfl hregall hrows]
    rw [hfinal]
  simp only [hread, ReadResult.toCloud]

/-! ## Registration and invariant helpers -/

theorem regProp_desc (en : String) (es : Nat) (s : RegSession) (p : PlyProperty)
    (s' : RegSession) (h : registerProperty en es s p = .ok s') :
    ∀ a ∈ s'.state.id_to_attr_state,
      a ∈ s.state.id_to_attr_state ∨ a.current_size = 0 := by
  simp only [registerProperty] at h
  split at h
  · cases h
    intro a ha
    exact Or.inl ha
  · split at h
    · cases h
    · split at h
      · cases h
        intro a ha
        rcases List.mem_append.mp ha with h1 | h2
        · exact Or.inl h1
        · exact Or.inr (by rw [List.mem_singleton.mp h2])
      · split at h
        · cases h
          intro a ha
          rcases List.mem_append.mp ha with h1 | h2
          · exact Or.inl h1
          · exact Or.inr (by rw [List.mem_singleton.mp h2])
        · split at h
          · cases h
            intro a ha
            rcases List.mem_append.mp ha with h1 | h2
            · exact Or.inl h1
            · exact Or.inr (by rw [List.mem_singleton.mp h2])
          · cases h
            intro a ha
            rcases List.mem_append.mp ha with h1 | h2
            · exact Or.inl h1
            · exact Or.inr (by rw [List.mem_singleton.mp h2])

theorem regProps_desc (en : String) (es : Nat) (props : List PlyProperty) :
    ∀ s s', registerProperties en es s props = .ok s' →
      ∀ a ∈ s'.state.id_to_attr_state,
        a ∈ s.state.id_to_attr_state ∨ a.current_size = 0 := by
  induction props with
  | nil =>
    intro s s' h
    cases h
    intro a ha
    exact Or.inl ha
  | cons p rest ih =>
    intro s s' h
    unfold registerProperties at h
    cases hp : registerProperty en es s p with
    | error e => rw [hp] at h; cases h
    | ok s1 =>
      rw [hp] at h
      intro a ha
      rcases ih s1 s' h a ha with h1 | h2
      · exact regProp_desc en es s p s1 hp a h1
      · exact Or.inr h2

theorem regProps_bad (en : String) (es : Nat) (props : List PlyProperty)
    (p : PlyProperty) (hreg : GetDtype p.type ≠ Dtype.Undefined)
    (hcount : p.count ≠ es) :
    ∀ s, p ∈ props → ∃ msg, registerProperties en es s props = .error msg := by
  induction props with
  | nil => intro s hp; cases hp
  | cons q rest ih =>
    intro s hp
    rcases List.mem_cons.mp hp with rfl | hp2
    · refine ⟨"Total size of property " ++ p.name ++ " is not equal to size of " ++ en, ?_⟩
      have hq : registerProperty en es s p =
          .error ("Total size of property " ++ p.name ++
            " is not equal to size of " ++ en) := by
        simp only [registerProperty]
        rw [if_neg hreg, if_pos hcount]
      unfold registerProperties
      rw [hq]
    · cases hq : registerProperty en es s q with
      | error e =>
        refine ⟨e, ?_⟩
        unfold registerProperties
        rw [hq]
      | ok s1 =>
        obtain ⟨msg, hmsg⟩ := ih s1 hp2
        refine ⟨msg, ?_⟩
        unfold registerProperties
        rw [hq]
        exact hmsg

theorem callback_inv (state : PLYReaderState) (pc : PointCloud) (id : Nat) (v : Value)
    (hinv : ∀ a ∈ state.id_to_attr_state, a.current_size ≤ a.size) :
    ∀ a ∈ ((ReadAttributeCallback state pc id v).1.1).id_to_attr_state,
      a.current_size ≤ a.size := by
  unfold ReadAttributeCallback
  cases hl : state.id_to_attr_state[id]? with
  | none => exact hinv
  | some a =>
    by_cases hle : a.size ≤ a.current_size
    · simp only [if_pos hle]
      exact hinv
    · simp only [if_neg hle]
      intro b hb
      rcases List.mem_or_eq_of_mem_set hb with h1 | h2
      · exact hinv b h1
      · rw [h2]
        exact Nat.not_le.mp hle

theorem plyReadRow_inv (l : List (Option Nat × Value)) :
    ∀ st pc st' pc' evts, plyReadRow l (st, pc) = (some (st', pc'), evts) →
      (∀ a ∈ st.id_to_attr_state, a.current_size ≤ a.size) →
      ∀ a ∈ st'.id_to_attr_state, a.current_size ≤ a.size := by
  induction l with
  | nil =>
    intro st pc st' pc' evts h hinv
    simp only [plyReadRow, Prod.mk.injEq, Option.some.injEq] at h
    obtain ⟨⟨rfl, rfl⟩, rfl⟩ := h
    exact hinv
  | cons x rest ih =>
    intro st pc st' pc' evts h hinv
    obtain ⟨rid, v⟩ := x
    cases rid with
    | none =>
      rw [plyReadRow_skip] at h
      exact ih st pc st' pc' evts h hinv
    | some id =>
      simp only [plyReadRow] at h
      have hinv1 := callback_inv st pc id v hinv
      rcases hc : ReadAttributeCallback st pc id v with ⟨⟨st1, pc1⟩, events, ret⟩
      rw [hc] at h hinv1
      by_cases hr : ret = 0
      · rw [if_pos hr] at h
        simp at h
      · rw [if_neg hr] at h
        rcases hrr : plyReadRow rest (st1, pc1) with ⟨r, evts'⟩
        rw [hrr] at h
        simp only [Prod.mk.injEq] at h
        obtain ⟨h1, h2⟩ := h
        rw [h1] at hrr
        exact ih st1 pc1 st' pc' evts' hrr hinv1

theorem plyReadRows_inv (reg_ids : List (Option Nat)) :
    ∀ n vs st pc st' pc' evts,
      plyReadRows reg_ids n vs (st, pc) = (some (st', pc'), evts) →
      (∀ a ∈ st.id_to_attr_state, a.current_size ≤ a.size) →
      ∀ a ∈ st'.id_to_attr_state, a.current_size ≤ a.size := by
  intro n
  induction n with
  | zero =>
    intro vs st pc st' pc' evts h hinv
    simp only [plyReadRows, Prod.mk.injEq, Option.some.injEq] at h
    obtain ⟨⟨rfl, rfl⟩, rfl⟩ := h
    exact hinv
  | succ m ih =>
    intro vs st pc st' pc' evts h hinv
    simp only [plyReadRows] at h
    rcases hr : plyReadRow (reg_ids.zip vs) (st, pc) with ⟨res, events⟩
    rw [hr] at h
    cases res with
    | none => simp at h
    | some acc1 =>
      obtain ⟨st1, pc1⟩ := acc1
      dsimp only at h
      have hinv1 := plyReadRow_inv (reg_ids.zip vs) st pc st1 pc1 events hr hinv
      rcases hrr : plyReadRows reg_ids m (vs.drop reg_ids.length) (st1, pc1) with ⟨r2, e2⟩
      rw [hrr] at h
      simp only [Prod.mk.injEq] at h
      obtain ⟨h1, h2⟩ := h
      rw [h1] at hrr
      exact ih (vs.drop reg_ids.length) st1 pc1 st' pc' e2 hrr hinv1

/-! ## Progress-event helpers -/

theorem callback_no_finish (state : PLYReaderState) (pc : PointCloud) (id : Nat)
    (v : Value) :
    finishCount (ReadAttributeCallback state pc id v).2.1 = 0 := by
  unfold ReadAttributeCallback
  cases hl : state.id_to_attr_state[id]? with
  | none => rfl
  | some a =>
    by_cases hle : a.size ≤ a.current_size
    · simp only [if_pos hle]
      rfl
    · simp only [if_neg hle]
      split <;> rfl

theorem plyReadRow_no_finish (l : List (Option Nat × Value)) :
    ∀ acc, finishCount (plyReadRow l acc).2 = 0 := by
  induction l with
  | nil => intro acc; rfl
  | cons x rest ih =>
    intro acc
    obtain ⟨st, pc⟩ := acc
    obtain ⟨rid, v⟩ := x
    cases rid with
    | none =>
      rw [plyReadRow_skip]
      exact ih (st, pc)
    | some id =>
      have hcb := callback_no_finish st pc id v
      rcases hc : ReadAttributeCallback st pc id v with ⟨acc', events, ret⟩
      rw [hc] at hcb
      simp only [plyReadRow, hc]
      by_cases hr : ret = 0
      · rw [if_pos hr]
        exact hcb
      · rw [if_neg hr]
        dsimp only
        rcases hrr : plyReadRow rest acc' with ⟨r, evts'⟩
        have h2 := ih acc'
        rw [hrr] at h2
        simp only [finishCount, List.countP_append] at hcb h2 ⊢
        omega

theorem plyReadRows_no_finish (reg_ids : List (Option Nat)) :
    ∀ n vs acc, finishCount (plyReadRows reg_ids n vs acc).2 = 0 := by
  intro n
  induction n with
  | zero => intro vs acc; rfl
  | succ m ih =>
    intro vs acc
    simp only [plyReadRows]
    rcases hr : plyReadRow (reg_ids.zip vs) acc with ⟨res, events⟩
    have hrow := plyReadRow_no_finish (reg_ids.zip vs) acc
    rw [hr] at hrow
    cases res with
    | none => exact hrow
    | some acc' =>
      dsimp only
      rcases hrr : plyReadRows reg_ids m (vs.drop reg_ids.length) acc' with ⟨r2, e2⟩
      have h2 := ih (vs.drop reg_ids.length) acc'
      rw [hrr] at h2
      simp only [finishCount, List.countP_append] at hrow h2 ⊢
      omega

theorem write_foldl_no_finish (ptrs : List AttributePtr) (n : Nat) :
    finishCount (((List.range n).foldl (fun acc i =>
      (acc.1 ++ ptrs.foldl (fun vs ap => vs ++ plyWriteGroup ap i) [],
       acc.2 ++ if i % 1000 = 0 then [ProgressEvent.update i] else []))
      ([], [])).2) = 0 := by
  suffices hgen : ∀ (l : List Nat) (acc : List Value × List ProgressEvent),
      finishCount ((l.foldl (fun acc i =>
        (acc.1 ++ ptrs.foldl (fun vs ap => vs ++ plyWriteGroup ap i) [],
         acc.2 ++ if i % 1000 = 0 then [ProgressEvent.update i] else [])) acc).2) =
      finishCount acc.2 by
    rw [hgen (List.range n) ([], [])]
    rfl
  intro l
  induction l with
  | nil => intro acc; rfl
  | cons i rest ih =>
    intro acc
    rw [List.foldl_cons, ih]
    dsimp only
    simp only [finishCount, List.countP_append]
    have hz : (if i % 1000 = 0 then [ProgressEvent.update i] else []).countP
        (fun e => e == ProgressEvent.finish) = 0 := by
      split <;> rfl
    simp only [hz, Nat.add_zero]

theorem write_events_char (pc : PointCloud) (ascii : Bool) :
    WritePointCloudToPLY pc ascii = (none, []) ∨
    ∃ f updates n, WritePointCloudToPLY pc ascii =
      (some f, [ProgressEvent.setTotal n] ++ updates ++ [ProgressEvent.finish]) ∧
      finishCount updates = 0 := by
  unfold WritePointCloudToPLY
  split
  · exact Or.inl rfl
  · split
    · exact Or.inl rfl
    · dsimp only
      split
      · exact Or.inl rfl
      · exact Or.inr ⟨_, _, _, rfl, write_foldl_no_finish _ _⟩

theorem read_events_char (file : PlyFile) (pc0 : PointCloud) :
    ((ReadPointCloudFromPLY file pc0).1.isOk = false ∧
      finishCount (ReadPointCloudFromPLY file pc0).2 = 0) ∨
    ∃ n levents, (ReadPointCloudFromPLY file pc0).1.isOk = true ∧
      (ReadPointCloudFromPLY file pc0).2 =
        [ProgressEvent.setTotal n] ++ levents ++ [ProgressEvent.finish] ∧
      finishCount levents = 0 := by
  unfold ReadPointCloudFromPLY
  split
  · exact Or.inl ⟨rfl, rfl⟩
  · split
    · exact Or.inl ⟨rfl, rfl⟩
    · split
      · exact Or.inl ⟨rfl, rfl⟩
      · next element heqf =>
        split
        · exact Or.inl ⟨rfl, rfl⟩
        · next s heqr =>
          split
          · next levents heq =>
            refine Or.inl ⟨rfl, ?_⟩
            have h := plyReadRows_no_finish s.reg_ids element.size file.values
              (s.state, s.pc)
            rw [heq] at h
            have h0 : List.countP (fun e => e == ProgressEvent.finish)
                [ProgressEvent.setTotal element.size] = 0 := rfl
            simp only [finishCount, List.countP_append] at h ⊢
            omega
          · next stx pcx levents heq =>
            refine Or.inr ⟨element.size, levents, rfl, rfl, ?_⟩
            have h := plyReadRows_no_finish s.reg_ids element.size file.values
              (s.state, s.pc)
            rw [heq] at h
            exact h

/-! ## Key-preservation helpers: a property the reader never registers a
callback for gains no attribute map entry. -/

theorem find?_setAttr_map (l : List (String × Tensor)) (b a : String) (t : Tensor)
    (hne : a ≠ b) :
    (l.map (fun kv => if kv.1 == b then (kv.1, t) else kv)).find?
        (fun kv => kv.1 == a) =
      l.find? (fun kv => kv.1 == a) := by
  induction l with
  | nil => rfl
  | cons kv rest ih =>
    rw [List.map_cons]
    by_cases hka : kv.1 = a
    · have hkb : (kv.1 == b) = false := by simp [hka, hne]
      rw [if_neg (by simp [hkb])]
      rw [List.find?_cons_of_pos _ (by simp [hka]), List.find?_cons_of_pos _ (by simp [hka])]
    · by_cases hkb : kv.1 = b
      · rw [if_pos (by simp [hkb])]
        rw [List.find?_cons, List.find?_cons]
        have hba : (kv.1 == a) = false := by simp [hka]
        rw [hba]
        exact ih
      · rw [if_neg (by simp [hkb])]
        rw [List.find?_cons, List.find?_cons]
        have hba : (kv.1 == a) = false := by simp [hka]
        rw [hba]
        exact ih

theorem getAttr_setAttr_ne (pc : PointCloud) (b a : String) (t : Tensor)
    (hne : a ≠ b) :
    (pc.setAttr b t).getAttr a = pc.getAttr a := by
  unfold PointCloud.setAttr PointCloud.getAttr
  by_cases hany : pc.attrs.any (fun kv => kv.1 == b)
  · rw [if_pos hany]
    dsimp only
    rw [find?_setAttr_map pc.attrs b a t hne]
  · rw [if_neg hany]
    dsimp only
    rw [List.find?_append]
    have h2 : ([(b, t)].find? (fun kv => kv.1 == a)) = none := by
      rw [List.find?_eq_none]
      intro kv hkv
      rw [List.mem_singleton.mp hkv]
      simp
      exact fun he => hne he.symm
    cases hf : pc.attrs.find? (fun kv => kv.1 == a) with
    | some kv => rfl
    | none =>
      rw [h2]
      rfl

theorem getAttr_writeAt_none (pc : PointCloud) (b a : String) (i : Nat) (v : Value)
    (h : pc.getAttr a = none) :
    (pc.writeAt b i v).getAttr a = none := by
  unfold PointCloud.writeAt PointCloud.getAttr
  unfold PointCloud.getAttr at h
  rw [Option.map_eq_none'] at h ⊢
  rw [List.find?_eq_none] at h ⊢
  intro kv hkv
  obtain ⟨kv0, hkv0, hmap⟩ := List.mem_map.mp hkv
  have hkey : kv.1 = kv0.1 := by
    rw [← hmap]
    split <;> rfl
  rw [hkey]
  exact h kv0 hkv0

theorem regProp_getAttr_none (en : String) (es : Nat) (s : RegSession)
    (q : PlyProperty) (s' : RegSession) (name : String)
    (h : registerProperty en es s q = .ok s')
    (hname : name ∉ ["positions", "normals", "colors"])
    (hq : q.name = name → GetDtype q.type = Dtype.Undefined)
    (hnone : s.pc.getAttr name = none) :
    s'.pc.getAttr name = none := by
  have hnp : name ≠ "positions" := fun he => hname (by rw [he]; decide)
  have hnn : name ≠ "normals" := fun he => hname (by rw [he]; simp)
  have hnc : name ≠ "colors" := fun he => hname (by rw [he]; simp)
  simp only [registerProperty] at h
  split at h
  · cases h
    exact hnone
  · split at h
    · cases h
    · split at h
      · cases h
        dsimp only
        split
        · exact hnone
        · rw [getAttr_setAttr_ne _ _ _ _ hnp]
          exact hnone
      · split at h
        · cases h
          dsimp only
          split
          · exact hnone
          · rw [getAttr_setAttr_ne _ _ _ _ hnn]
            exact hnone
        · split at h
          · cases h
            dsimp only
            split
            · exact hnone
            · rw [getAttr_setAttr_ne _ _ _ _ hnc]
              exact hnone
          · next hbad hsz h1 h2 h3 =>
            cases h
            dsimp only
            have hqn : q.name ≠ name := by
              intro he
              exact hbad (hq he)
            rw [getAttr_setAttr_ne _ _ _ _ (fun he => hqn he.symm)]
            exact hnone

theorem regProps_getAttr_none (en : String) (es : Nat)
    (props : List PlyProperty) (name : String)
    (hname : name ∉ ["positions", "normals", "colors"])
    (hqs : ∀ q ∈ props, q.name = name → GetDtype q.type = Dtype.Undefined) :
    ∀ s s', registerProperties en es s props = .ok s' →
      s.pc.getAttr name = none → s'.pc.getAttr name = none := by
  induction props with
  | nil =>
    intro s s' h hnone
    cases h
    exact hnone
  | cons q rest ih =>
    intro s s' h hnone
    unfold registerProperties at h
    cases hq : registerProperty en es s q with
    | error e => rw [hq] at h; cases h
    | ok s1 =>
      rw [hq] at h
      have h1 := regProp_getAttr_none en es s q s1 name hq hname
        (hqs q (List.mem_cons_self q rest)) hnone
      exact ih (fun r hr => hqs r (List.mem_cons_of_mem q hr)) s1 s' h h1

theorem callback_getAttr_none (st : PLYReaderState) (pc : PointCloud) (id : Nat)
    (v : Value) (name : String) (h : pc.getAttr name = none) :
    ((ReadAttributeCallback st pc id v).1.2).getAttr name = none := by
  unfold ReadAttributeCallback
  cases hl : st.id_to_attr_state[id]? with
  | none => exact h
  | some a =>
    by_cases hle : a.size ≤ a.current_size
    · simp only [if_pos hle]
      exact h
    · simp only [if_neg hle]
      exact getAttr_writeAt_none pc a.name name _ v h

theorem plyReadRow_getAttr_none (l : List (Option Nat × Value)) (name : String) :
    ∀ st pc st' pc' evts, plyReadRow l (st, pc) = (some (st', pc'), evts) →
      pc.getAttr name = none → pc'.getAttr name = none := by
  induction l with
  | nil =>
    intro st pc st' pc' evts h hnone
    simp only [plyReadRow, Prod.mk.injEq, Option.some.injEq] at h
    obtain ⟨⟨rfl, rfl⟩, rfl⟩ := h
    exact hnone
  | cons x rest ih =>
    intro st pc st' pc' evts h hnone
    obtain ⟨rid, v⟩ := x
    cases rid with
    | none =>
      rw [plyReadRow_skip] at h
      exact ih st pc st' pc' evts h hnone
    | some id =>
      simp only [plyReadRow] at h
      have hkeep := callback_getAttr_none st pc id v name hnone
      rcases hc : ReadAttributeCallback st pc id v with ⟨⟨st1, pc1⟩, events, ret⟩
      rw [hc] at h hkeep
      by_cases hr : ret = 0
      · rw [if_pos hr] at h
        simp at h
      · rw [if_neg hr] at h
        rcases hrr : plyReadRow rest (st1, pc1) with ⟨r, evts'⟩
        rw [hrr] at h
        simp only [Prod.mk.injEq] at h
        obtain ⟨h1, h2⟩ := h
        rw [h1] at hrr
        exact ih st1 pc1 st' pc' evts' hrr hkeep

theorem plyReadRows_getAttr_none (reg_ids : List (Option Nat)) (name : String) :
    ∀ n vs st pc st' pc' evts,
      plyReadRows reg_ids n vs (st, pc) = (some (st', pc'), evts) →
      pc.getAttr name = none → pc'.getAttr name = none := by
  intro n
  induction n with
  | zero =>
    intro vs st pc st' pc' evts h hnone
    simp only [plyReadRows, Prod.mk.injEq, Option.some.injEq] at h
    obtain ⟨⟨rfl, rfl⟩, rfl⟩ := h
    exact hnone
  | succ m ih =>
    intro vs st pc st' pc' evts h hnone
    simp only [plyReadRows] at h
    rcases hr : plyReadRow (reg_ids.zip vs) (st, pc) with ⟨res, events⟩
    rw [hr] at h
    cases res with
    | none => simp at h
    | some acc1 =>
      obtain ⟨st1, pc1⟩ := acc1
      dsimp only at h
      have hkeep := plyReadRow_getAttr_none (reg_ids.zip vs) name st pc st1 pc1
        events hr hnone
      rcases hrr : plyReadRows reg_ids m (vs.drop reg_ids.length) (st1, pc1) with ⟨r2, e2⟩
      rw [hrr] at h
      simp only [Prod.mk.injEq] at h
      obtain ⟨h1, h2⟩ := h
      rw [h1] at hrr
      exact ih (vs.drop reg_ids.length) st1 pc1 st' pc' e2 hrr hkeep

theorem read_getAttr_none (file : PlyFile) (pc0 : PointCloud) (pc' : PointCloud)
    (name : String)
    (h : (ReadPointCloudFromPLY file pc0).1 = .ok pc')
    (hnone : pc0.getAttr name = none)
    (hname : name ∉ ["positions", "normals", "colors"])
    (hqs : ∀ element, file.elements.find? (fun e => e.name == "vertex") = some element →
      ∀ q ∈ element.properties, q.name = name → GetDtype q.type = Dtype.Undefined) :
    pc'.getAttr name = none := by
  unfold ReadPointCloudFromPLY at h
  split at h
  · cases h
  · split at h
    · cases h
    · split at h
      · cases h
      · next element heqf =>
        split at h
        · cases h
        · next s heqr =>
          split at h
          · cases h
          · next stx pcx levents heq =>
            simp only at h
            cases h
            have hs : s.pc.getAttr name = none :=
              regProps_getAttr_none element.name element.size element.properties name
                hname (hqs element heqf) (initSession pc0) s heqr hnone
            exact plyReadRows_getAttr_none s.reg_ids name element.size file.values
              s.state s.pc stx pc' levents heq hs

/-! ## The claims -/

/-- C1: for every well-formed attribute table (positions only, or with
normals and/or colors, plus generic scalar attributes, over the supported
dtypes) and both encodings, decoding the file produced by encoding the table
yields a table with exactly the same attributes: for every attribute name,
the decoded tensor (name, shape, dtype, flat values in row order) equals the
original one. -/
theorem c1_roundtrip_elementwise (pc : PointCloud) (n : Nat) (ascii : Bool)
    (name : String) (h : wfCloud pc n = true) :
    (decodeEncoded pc ascii).map (fun c => c.getAttr name) = some (pc.getAttr name) := by
  rw [decodeEncoded_eq pc n ascii h, Option.map_some', canonCloud_getAttr]

theorem c1_roundtrip_elementwise_witness :
    wfCloud pcEx 3 = true ∧
    ((decodeEncoded pcEx true).map (fun c => c.getAttr "label") =
      some (pcEx.getAttr "label")) ∧
    ((decodeEncoded pcEx false).map (fun c => c.getAttr "positions") =
      some (pcEx.getAttr "positions")) :=
  ⟨by decide,
   c1_roundtrip_elementwise pcEx 3 true "label" (by decide),
   c1_roundtrip_elementwise pcEx 3 false "positions" (by decide)⟩

/-- C2: if any registered (supported-dtype) property of the vertex element
reports a per-property count different from the element's declared
cardinality, the whole read aborts with a thrown `LogError` (a fatal
result), not a truncated success. -/
theorem c2_count_mismatch_fatal (file : PlyFile) (pc0 : PointCloud)
    (element : PlyElement) (p : PlyProperty)
    (hopen : file.openOk = true) (hheader : file.headerOk = true)
    (hfind : file.elements.find? (fun e => e.name == "vertex") = some element)
    (hp : p ∈ element.properties) (hsup : GetDtype p.type ≠ Dtype.Undefined)
    (hcount : p.count ≠ element.size) :
    (ReadPointCloudFromPLY file pc0).1.isFatal = true ∧
    (ReadPointCloudFromPLY file pc0).2 = [] := by
  obtain ⟨msg, hmsg⟩ := regProps_bad element.name element.size element.properties
    p hsup hcount (initSession pc0) hp
  unfold ReadPointCloudFromPLY
  rw [if_neg (by rw [hopen]; exact not_not_intro rfl),
      if_neg (by rw [hheader]; exact not_not_intro rfl), hfind]
  dsimp only
  rw [hmsg]
  exact ⟨rfl, rfl⟩

theorem c2_count_mismatch_fatal_witness :
    (ReadPointCloudFromPLY fileBad { attrs := [] }).1.isFatal = true ∧
    (ReadPointCloudFromPLY fileBad { attrs := [] }).2 = [] :=
  c2_count_mismatch_fatal fileBad { attrs := [] } elemBad propBad
    rfl rfl (by decide) (by decide) (by decide) (by decide)

/-- C3 (corrected): when a decode callback fires on a descriptor whose
consumed count has reached its bound, the incoming value is indeed discarded
(reader state and point cloud unchanged, no events), but the callback
returns 0 — which is the rply code that ABORTS `ply_read` — not the
value-reporting success code 1, so a trailing excess value stops the stream
instead of being skipped over. -/
theorem c3_at_bound_returns_abort_code (state : PLYReaderState) (pc : PointCloud)
    (id : Nat) (v : Value) (a : AttrState)
    (h : state.id_to_attr_state[id]? = some a) (hge : a.size ≤ a.current_size) :
    ReadAttributeCallback state pc id v = ((state, pc), [], 0) ∧
    ∀ rest, plyReadRow ((some id, v) :: rest) (state, pc) = (none, []) := by
  have hcb := callback_full state pc id v a h hge
  refine ⟨hcb, fun rest => ?_⟩
  simp [plyReadRow, hcb]

theorem c3_at_bound_returns_abort_code_witness :
    ReadAttributeCallback { id_to_attr_state := [{ name := "positions", stride := 3, offset := 0, size := 1, current_size := 1 }] } { attrs := [] } 0 5 =
      (({ id_to_attr_state := [{ name := "positions", stride := 3, offset := 0, size := 1, current_size := 1 }] }, { attrs := [] }), [], 0) ∧
    plyReadRow [(some 0, 5)] ({ id_to_attr_state := [{ name := "positions", stride := 3, offset := 0, size := 1, current_size := 1 }] }, { attrs := [] }) = (none, []) :=
  ⟨(c3_at_bound_returns_abort_code _ _ 0 5 { name := "positions", stride := 3, offset := 0, size := 1, current_size := 1 } (by decide) (by decide)).1,
   (c3_at_bound_returns_abort_code _ _ 0 5 { name := "positions", stride := 3, offset := 0, size := 1, current_size := 1 } (by decide) (by decide)).2 []⟩

/-- C3 counterexample: a concrete at-bound invocation returns 0, 0 is not
the success code 1, and the enclosing row read aborts (returns `none`)
rather than continuing past the excess value. -/
theorem c3_counterexample :
    (ReadAttributeCallback { id_to_attr_state := [{ name := "positions", stride := 3, offset := 0, size := 1, current_size := 1 }] } { attrs := [] } 0 5).2.2 = 0 ∧
    ((0 : Int) = 1 → False) ∧
    (plyReadRow [(some 0, 5)] ({ id_to_attr_state := [{ name := "positions", stride := 3, offset := 0, size := 1, current_size := 1 }] }, { attrs := [] })).1 = none := by
  decide

/-- C4: consumed counts never exceed the bound: every descriptor a
registration pass creates starts at consumed count 0; a callback invocation
preserves `current_size ≤ size` for every descriptor; an invocation at the
bound leaves state and cloud untouched (no write, no increment); and every
state reachable by streaming rows from a state satisfying the invariant
still satisfies it. -/
theorem c4_consumed_le_expected (en : String) (es : Nat) (pc0 : PointCloud)
    (props : List PlyProperty) (s : RegSession)
    (hreg : registerProperties en es (initSession pc0) props = .ok s)
    (state : PLYReaderState) (pc : PointCloud) (id : Nat) (v : Value)
    (hinv : ∀ a ∈ state.id_to_attr_state, a.current_size ≤ a.size) :
    (∀ a ∈ s.state.id_to_attr_state, a.current_size = 0) ∧
    (∀ a ∈ ((ReadAttributeCallback state pc id v).1.1).id_to_attr_state,
      a.current_size ≤ a.size) ∧
    (∀ a, state.id_to_attr_state[id]? = some a → a.size ≤ a.current_size →
      ReadAttributeCallback state pc id v = ((state, pc), [], 0)) ∧
    (∀ m vs st' pc' evts,
      plyReadRows s.reg_ids m vs (state, pc) = (some (st', pc'), evts) →
      ∀ a ∈ st'.id_to_attr_state, a.current_size ≤ a.size) := by
  refine ⟨?_, callback_inv state pc id v hinv, ?_, ?_⟩
  · intro a ha
    rcases regProps_desc en es props (initSession pc0) s hreg a ha with h1 | h2
    · simp [initSession] at h1
    · exact h2
  · intro a ha hge
    exact callback_full state pc id v a ha hge
  · intro m vs st' pc' evts h
    exact plyReadRows_inv s.reg_ids m vs state pc st' pc' evts h hinv

theorem c4_consumed_le_expected_witness :
    (∀ a ∈ [({ name := "positions", stride := 3, offset := 0, size := 2, current_size := 0 } : AttrState)], a.current_size = 0) ∧
    (∀ a ∈ ((ReadAttributeCallback { id_to_attr_state := [{ name := "positions", stride := 3, offset := 0, size := 2, current_size := 1 }] } { attrs := [] } 0 7).1.1).id_to_attr_state, a.current_size ≤ a.size) ∧
    (∀ a, ([({ name := "positions", stride := 3, offset := 0, size := 2, current_size := 1 } : AttrState)])[0]? = some a → a.size ≤ a.current_size → ReadAttributeCallback { id_to_attr_state := [{ name := "positions", stride := 3, offset := 0, size := 2, current_size := 1 }] } { attrs := [] } 0 7 = (({ id_to_attr_state := [{ name := "positions", stride := 3, offset := 0, size := 2, current_size := 1 }] }, { attrs := [] }), [], 0)) ∧
    (∀ m vs st' pc' evts, plyReadRows [some 0] m vs ({ id_to_attr_state := [{ name := "positions", stride := 3, offset := 0, size := 2, current_size := 1 }] }, { attrs := [] }) = (some (st', pc'), evts) → ∀ a ∈ st'.id_to_attr_state, a.current_size ≤ a.size) :=
  c4_consumed_le_expected "vertex" 2 { attrs := [] }
    [{ name := "x", type := PlyType.PLY_FLOAT32, count := 2 }]
    { positions_init := true, normals_init := false, colors_init := false, state := { id_to_attr_state := [{ name := "positions", stride := 3, offset := 0, size := 2, current_size := 0 }] }, pc := { attrs := [("positions", { rows := 2, cols := 3, dtype := Dtype.Float32, data := [0, 0, 0, 0, 0, 0] })] }, reg_ids := [some 0], warnings := [] }
    (by rfl)
    { id_to_attr_state := [{ name := "positions", stride := 3, offset := 0, size := 2, current_size := 1 }] }
    { attrs := [] } 0 7 (by decide)

/-- C5: a decode callback invocation below the bound stores the incoming
value (the double-to-T cast is the identity on the carried scalar) into its
descriptor's buffer at flat index stride * current_size + offset, bumps the
consumed count by exactly one, and returns 1; the source's dead
stride = 0 progress branch is reproduced verbatim. -/
theorem c5_store_at_strided_index (descs : List AttrState) (pc : PointCloud)
    (id : Nat) (v : Value) (a : AttrState) (h : descs[id]? = some a)
    (hlt : a.current_size < a.size) :
    ReadAttributeCallback { id_to_attr_state := descs } pc id v =
      (({ id_to_attr_state := descs.set id { a with current_size := a.current_size + 1 } },
        pc.writeAt a.name (a.stride * a.current_size + a.offset) v),
       (if a.stride = 0 ∧ (a.current_size + 1) % 1000 = 0 then
          [ProgressEvent.update (a.current_size + 1)] else []),
       1) := by
  unfold ReadAttributeCallback
  simp only [h]
  rw [if_neg (Nat.not_le.mpr hlt)]

theorem c5_store_at_strided_index_witness :
    ReadAttributeCallback { id_to_attr_state := [{ name := "positions", stride := 3, offset := 2, size := 2, current_size := 1 }] } { attrs := [("positions", { rows := 2, cols := 3, dtype := Dtype.Float32, data := [1, 2, 3, 4, 5, 6] })] } 0 9 =
      (({ id_to_attr_state := [{ name := "positions", stride := 3, offset := 2, size := 2, current_size := 2 }] },
        PointCloud.writeAt { attrs := [("positions", { rows := 2, cols := 3, dtype := Dtype.Float32, data := [1, 2, 3, 4, 5, 6] })] } "positions" 5 9),
       [], 1) :=
  c5_store_at_strided_index [{ name := "positions", stride := 3, offset := 2, size := 2, current_size := 1 }]
    { attrs := [("positions", { rows := 2, cols := 3, dtype := Dtype.Float32, data := [1, 2, 3, 4, 5, 6] })] }
    0 9 { name := "positions", stride := 3, offset := 2, size := 2, current_size := 1 }
    (by decide) (by decide)

/-- C6: a vertex property whose wire scalar type maps to `Undefined` is
skipped: registration succeeds having only appended a warning and a `none`
callback id (descriptor list and attribute map untouched), rply discards
values that reach no callback, and any read that returns a cloud leaves no
entry under a name all of whose header occurrences are unsupported. -/
theorem c6_unsupported_property_skipped (en : String) (es : Nat) (s : RegSession)
    (p : PlyProperty) (hbad : GetDtype p.type = Dtype.Undefined) :
    registerProperty en es s p = .ok { s with
      warnings := s.warnings ++
        ["Read PLY warning: skipping property " ++ p.name ++
         ", unsupported datatype " ++ GetDtypeString p.type],
      reg_ids := s.reg_ids ++ [none] } ∧
    (∀ (v : Value) rest acc, plyReadRow ((none, v) :: rest) acc = plyReadRow rest acc) ∧
    (∀ file pc0 pc' name, (ReadPointCloudFromPLY file pc0).1 = .ok pc' →
      pc0.getAttr name = none → name ∉ ["positions", "normals", "colors"] →
      (∀ element, file.elements.find? (fun e => e.name == "vertex") = some element →
        ∀ q ∈ element.properties, q.name = name → GetDtype q.type = Dtype.Undefined) →
      pc'.getAttr name = none) := by
  refine ⟨?_, fun v rest acc => plyReadRow_skip rest acc v, ?_⟩
  · simp only [registerProperty]
    rw [if_pos hbad]
  · intro file pc0 pc' name h hnone hname hqs
    exact read_getAttr_none file pc0 pc' name h hnone hname hqs

theorem c6_unsupported_property_skipped_witness :
    plyReadRow [((none : Option Nat), (42 : Value))] ({ id_to_attr_state := [] }, { attrs := [] }) =
      plyReadRow [] ({ id_to_attr_state := [] }, { attrs := [] }) ∧
    ({ attrs := [("positions", { rows := 1, cols := 3, dtype := Dtype.Float32, data := [7, 8, 9] })] } : PointCloud).getAttr "weird" = none :=
  ⟨(c6_unsupported_property_skipped "vertex" 1 (initSession { attrs := [] })
      { name := "weird", type := PlyType.PLY_USHORT, count := 1 } (by decide)).2.1
      42 [] ({ id_to_attr_state := [] }, { attrs := [] }),
   (c6_unsupported_property_skipped "vertex" 1 (initSession { attrs := [] })
      { name := "weird", type := PlyType.PLY_USHORT, count := 1 } (by decide)).2.2
      fileEx { attrs := [] }
      { attrs := [("positions", { rows := 1, cols := 3, dtype := Dtype.Float32, data := [7, 8, 9] })] }
      "weird" (by decide) (by decide) (by decide)
      (by
        intro element helem q hq hqn
        have he : element = { name := "vertex", size := 1, properties := fileExProps } := by
          have h2 : some ({ name := "vertex", size := 1, properties := fileExProps } : PlyElement) = some element := by
            rw [← helem]
            rfl
          exact (Option.some.inj h2).symm
        subst he
        simp only [fileExProps, List.mem_cons, List.not_mem_nil, or_false] at hq
        rcases hq with rfl | rfl | rfl | rfl
        · exact absurd hqn (by decide)
        · exact absurd hqn (by decide)
        · exact absurd hqn (by decide)
        · rfl)⟩

/-- C7: write validates before emitting: an empty cloud (no points) yields no
file and no progress events, and so does any cloud with some attribute
failing the per-attribute shape check (a triple bucket without exactly
num_points rows, or a generic attribute whose shape is not
(num_points, 1)). -/
theorem c7_write_validates_first (pc : PointCloud) (ascii : Bool) :
    (pc.IsEmpty = true → WritePointCloudToPLY pc ascii = (none, [])) ∧
    (∀ positions, pc.getAttr "positions" = some positions →
      ∀ kv ∈ pc.attrs, validAttr positions.rows kv = false →
        WritePointCloudToPLY pc ascii = (none, [])) := by
  constructor
  · intro hemp
    unfold WritePointCloudToPLY
    rw [if_pos hemp]
  · intro positions hpos kv hkv hbadkv
    unfold WritePointCloudToPLY
    by_cases hemp : pc.IsEmpty
    · rw [if_pos hemp]
    · rw [if_neg hemp, hpos]
      dsimp only
      have hall : pc.attrs.all (validAttr positions.rows) = false := by
        rw [List.all_eq_false]
        exact ⟨kv, hkv, by simp [hbadkv]⟩
      rw [if_pos (by rw [hall]; exact (by decide : ¬false = true))]

theorem c7_write_validates_first_witness :
    WritePointCloudToPLY { attrs := [] } true = (none, []) ∧
    WritePointCloudToPLY { attrs := [("positions", { rows := 2, cols := 3, dtype := Dtype.Float32, data := [1, 2, 3, 4, 5, 6] }), ("label", { rows := 2, cols := 2, dtype := Dtype.UInt8, data := [1, 2, 3, 4] })] } false = (none, []) :=
  ⟨(c7_write_validates_first { attrs := [] } true).1 (by decide),
   (c7_write_validates_first { attrs := [("positions", { rows := 2, cols := 3, dtype := Dtype.Float32, data := [1, 2, 3, 4, 5, 6] }), ("label", { rows := 2, cols := 2, dtype := Dtype.UInt8, data := [1, 2, 3, 4] })] } false).2
     { rows := 2, cols := 3, dtype := Dtype.Float32, data := [1, 2, 3, 4, 5, 6] }
     (by decide)
     ("label", { rows := 2, cols := 2, dtype := Dtype.UInt8, data := [1, 2, 3, 4] })
     (by decide) (by decide)⟩

/-- C8: a successful write declares the vertex properties in the fixed
order x, y, z, then nx, ny, nz when normals are present, then red, green,
blue when colors are present, then the generic attributes in map iteration
order (`encodeProps`), and streams the scalar values point-major: for each
point i, each attribute group in that order contributes its group_size
scalars read from its flat buffer at group_size * i + k
(`encValues`/`encodePtrs`, unfolded in the second conjunct). -/
theorem c8_fixed_order_point_major (pc : PointCloud) (ascii : Bool)
    (positions : Tensor) (n : Nat) (hpos : pc.getAttr "positions" = some positions)
    (hn : positions.rows = n) (hn0 : n ≠ 0)
    (hvalid : pc.attrs.all (validAttr n) = true) :
    (∃ f, writtenFile pc ascii = some f ∧
      f.elements = [{ name := "vertex", size := n,
                      properties := encodeProps pc positions n }] ∧
      f.values = encValues (encodePtrs pc positions n) n) ∧
    encValues (encodePtrs pc positions n) n =
      (List.range n).flatMap (fun i =>
        (encodePtrs pc positions n).flatMap (fun ap =>
          (List.range ap.group_size).map (fun k =>
            ap.data.getD (ap.group_size * i + k) 0))) := by
  have hw : writtenFile pc ascii = some
      { openOk := true, headerOk := true, ascii := ascii,
        comments := ["Created by Open3D"],
        elements := [{ name := "vertex", size := n,
                       properties := encodeProps pc positions n }],
        values := encValues (encodePtrs pc positions n) n } := by
    unfold writtenFile
    rw [writeChar pc ascii positions n hpos hn hn0 hvalid]
  exact ⟨⟨_, hw, rfl, rfl⟩, rfl⟩

theorem c8_fixed_order_point_major_witness :
    (∃ f, writtenFile pcEx true = some f ∧
      f.elements = [{ name := "vertex", size := 3,
                      properties := encodeProps pcEx { rows := 3, cols := 3, dtype := Dtype.Float32, data := [0, 0, 0, 1, 1, 1, 2, 2, 2] } 3 }] ∧
      f.values = encValues (encodePtrs pcEx { rows := 3, cols := 3, dtype := Dtype.Float32, data := [0, 0, 0, 1, 1, 1, 2, 2, 2] } 3) 3) ∧
    encValues (encodePtrs pcEx { rows := 3, cols := 3, dtype := Dtype.Float32, data := [0, 0, 0, 1, 1, 1, 2, 2, 2] } 3) 3 =
      (List.range 3).flatMap (fun i =>
        (encodePtrs pcEx { rows := 3, cols := 3, dtype := Dtype.Float32, data := [0, 0, 0, 1, 1, 1, 2, 2, 2] } 3).flatMap (fun ap =>
          (List.range ap.group_size).map (fun k =>
            ap.data.getD (ap.group_size * i + k) 0))) :=
  c8_fixed_order_point_major pcEx true
    { rows := 3, cols := 3, dtype := Dtype.Float32, data := [0, 0, 0, 1, 1, 1, 2, 2, 2] }
    3 (by decide) (by decide) (by decide) (by decide)

/-- C9 (corrected): the progress sink's Finish fires exactly once, as the
final event, on a successful pass — but zero times on a failed or aborted
pass, for both the read and the write path; the claim's "successful or
attempted" does not hold, since every failure path returns before
`reporter.Finish()`. -/
theorem c9_finish_only_on_success (pc : PointCloud) (ascii : Bool)
    (file : PlyFile) (pc0 : PointCloud) :
    (finishCount (WritePointCloudToPLY pc ascii).2 =
      if (WritePointCloudToPLY pc ascii).1.isSome then 1 else 0) ∧
    (finishCount (ReadPointCloudFromPLY file pc0).2 =
      if (ReadPointCloudFromPLY file pc0).1.isOk then 1 else 0) ∧
    ((WritePointCloudToPLY pc ascii).1.isSome = true →
      (WritePointCloudToPLY pc ascii).2.getLast? = some ProgressEvent.finish) ∧
    ((ReadPointCloudFromPLY file pc0).1.isOk = true →
      (ReadPointCloudFromPLY file pc0).2.getLast? = some ProgressEvent.finish) := by
  have hw := write_events_char pc ascii
  have hr := read_events_char file pc0
  refine ⟨?_, ?_, ?_, ?_⟩
  · rcases hw with h | ⟨f, u, n, heq, hcount⟩
    · rw [h]
      rfl
    · rw [heq]
      simp only [Option.isSome_some, if_true, finishCount, List.countP_append]
      simp only [finishCount] at hcount
      rw [hcount]
      rfl
  · rcases hr with ⟨hok, hcnt⟩ | ⟨n, lev, hok, heq, hcount⟩
    · rw [hok, hcnt]
      rfl
    · rw [hok, heq]
      simp only [if_true, finishCount, List.countP_append]
      simp only [finishCount] at hcount
      rw [hcount]
      rfl
  · intro hsome
    rcases hw with h | ⟨f, u, n, heq, hcount⟩
    · rw [h] at hsome
      cases hsome
    · rw [heq]
      rw [show ([ProgressEvent.setTotal n] ++ u ++ [ProgressEvent.finish] :
          List ProgressEvent) =
        ([ProgressEvent.setTotal n] ++ u) ++ [ProgressEvent.finish] from rfl]
      exact List.getLast?_concat _
  · intro hok2
    rcases hr with ⟨hok, hcnt⟩ | ⟨n, lev, hok, heq, hcount⟩
    · rw [hok2] at hok
      cases hok
    · rw [heq]
      rw [show ([ProgressEvent.setTotal n] ++ lev ++ [ProgressEvent.finish] :
          List ProgressEvent) =
        ([ProgressEvent.setTotal n] ++ lev) ++ [ProgressEvent.finish] from rfl]
      exact List.getLast?_concat _

/-- C9 counterexample: an attempted (failing) write pass — the empty cloud —
emits no Finish at all, and an attempted (failing) read pass — a file whose
open failed — emits none either; Finish is not called on every attempted
pass. -/
theorem c9_counterexample :
    (WritePointCloudToPLY { attrs := [] } true).1 = none ∧
    finishCount (WritePointCloudToPLY { attrs := [] } true).2 = 0 ∧
    (ReadPointCloudFromPLY { openOk := false, headerOk := false, ascii := true, comments := [], elements := [], values := [] } { attrs := [] }).1.isOk = false ∧
    finishCount (ReadPointCloudFromPLY { openOk := false, headerOk := false, ascii := true, comments := [], elements := [], values := [] } { attrs := [] }).2 = 0 := by
  decide

/-- C10 (corrected): `GetPlyType` is total and every dtype outside the five
supported ones (uint8, uint16, int32, float32, float64) — int64, uint32,
bool, etc. — falls through to the wire type double, and the write
validation loop never inspects dtypes; but float64 does NOT take the
catch-all: it has its own branch mapping it to the distinct wire type
PLY_FLOAT64. -/
theorem c10_catch_all_double (d : Dtype) (hd : supportedDtype d = false) :
    GetPlyType d = PlyType.PLY_DOUBLE ∧
    (∀ n (name : String) (t : Tensor) (d2 : Dtype),
      validAttr n (name, { t with dtype := d2 }) = validAttr n (name, t)) := by
  constructor
  · cases d <;> first
      | rfl
      | (exfalso; simp [supportedDtype] at hd)
  · intro n name t d2
    rfl

theorem c10_catch_all_double_witness :
    GetPlyType Dtype.Int64 = PlyType.PLY_DOUBLE ∧
    (∀ n (name : String) (t : Tensor) (d2 : Dtype),
      validAttr n (name, { t with dtype := d2 }) = validAttr n (name, t)) :=
  c10_catch_all_double Dtype.Int64 (by decide)

/-- C10 counterexample: float64 does not fall through to the catch-all: its
own branch yields PLY_FLOAT64, a different wire type whose header name is
"float64", not "double". -/
theorem c10_counterexample :
    GetPlyType Dtype.Float64 = PlyType.PLY_FLOAT64 ∧
    (PlyType.PLY_FLOAT64 = PlyType.PLY_DOUBLE → False) ∧
    GetDtypeString (GetPlyType Dtype.Float64) = "float64" := by
  decide

theorem c9_finish_only_on_success_witness :
    (finishCount (WritePointCloudToPLY pcEx true).2 =
      if (WritePointCloudToPLY pcEx true).1.isSome then 1 else 0) ∧
    (finishCount (ReadPointCloudFromPLY fileBad { attrs := [] }).2 =
      if (ReadPointCloudFromPLY fileBad { attrs := [] }).1.isOk then 1 else 0) ∧
    ((WritePointCloudToPLY pcEx true).1.isSome = true →
      (WritePointCloudToPLY pcEx true).2.getLast? = some ProgressEvent.finish) ∧
    ((ReadPointCloudFromPLY fileBad { attrs := [] }).1.isOk = true →
      (ReadPointCloudFromPLY fileBad { attrs := [] }).2.getLast? = some ProgressEvent.finish) :=
  c9_finish_only_on_success pcEx true fileBad { attrs := [] }
